import Mathlib

/-!
# Verification of the ib_insync decoder subsystem

A shallow embedding of the message-decoding core of the `ib_insync` fork:
the field cursor (`ib_insync/decoders/parsers/field_parser.py`), the message
registry (`ib_insync/decoders/base.py`), the dispatcher
(`ib_insync/decoders/dispatcher.py`), representative message decoders
(`ib_insync/decoders/models/market_data.py`, `orders.py`), and the contract
resolver (`ib_insync/contract/adapter.py`, `specialized.py`, `base.py`).

Conventions of the embedding:
* Python strings are `String`, Python ints are `Int`, Python floats are
  `PyFloat` (exact rationals plus the `inf`/`-inf`/`nan` tokens; IEEE
  rounding is irrelevant to every property proved here, which only depends
  on parse success and pass-through of parsed values).
* Python code that can raise is embedded in `Except Unit` (the error payload
  of an exception is never inspected by the code under study).
* Mutation of a `FieldIterator` becomes explicit state passing on `Cursor`.
* Wall-clock statistics (`processing_time`) are outside the model.
-/

set_option maxRecDepth 8192

namespace IB

/-! ## Python scalar parsing -/

/-- The ASCII whitespace characters removed by Python's `str.strip()` /
ignored around numeric literals by `int()` and `float()`. -/
def isPySpace (c : Char) : Bool :=
  c = ' ' || c = '\t' || c = '\n' || c = '\r' || c.toNat = 11 || c.toNat = 12

/-- Strip leading and trailing Python whitespace from a character list. -/
def stripPySpace (cs : List Char) : List Char :=
  ((cs.dropWhile isPySpace).reverse.dropWhile isPySpace).reverse

/-- ASCII lowercasing of one character (protocol tokens are ASCII; the
Unicode cases of Python's `str.lower` are irrelevant here). -/
def lowerChar (c : Char) : Char :=
  if 'A' ≤ c && c ≤ 'Z' then Char.ofNat (c.toNat + 32) else c

/-- ASCII lowercasing of a string, modelling Python's `str.lower()`. -/
def pyLower (s : String) : String :=
  String.mk (s.toList.map lowerChar)

/-- Numeric value of a decimal digit character. -/
def digitVal (c : Char) : Nat := c.toNat - 48

/-- Continue parsing a run of decimal digits in which a single underscore
may separate two digits (Python numeric-literal strings); accumulates the
value and the count of digits seen. -/
def pyDigitsGo (acc : Nat) (k : Nat) : List Char → Option (Nat × Nat)
  | [] => some (acc, k)
  | '_' :: c :: rest =>
      if c.isDigit then pyDigitsGo (acc * 10 + digitVal c) (k + 1) rest else none
  | c :: rest =>
      if c.isDigit then pyDigitsGo (acc * 10 + digitVal c) (k + 1) rest else none

/-- Parse a nonempty underscore-separated digit run, returning its value and
the number of digits; `none` on any malformation (empty, leading or trailing
underscore, doubled underscore, non-digit). -/
def pyDigitsCount? : List Char → Option (Nat × Nat)
  | [] => none
  | c :: rest => if c.isDigit then pyDigitsGo (digitVal c) 1 rest else none

/-- Parse a digit run, value only. -/
def pyDigits? (cs : List Char) : Option Nat :=
  (pyDigitsCount? cs).map (·.1)

/-- Python's `int(s)` for base 10: optional surrounding whitespace, optional
sign, then digits with single embedded underscores.  Returns `none` where
Python raises `ValueError`. -/
def pyInt? (s : String) : Option Int :=
  match stripPySpace s.toList with
  | '+' :: rest => (pyDigits? rest).map Int.ofNat
  | '-' :: rest => (pyDigits? rest).map (fun n => -(n : Int))
  | cs => (pyDigits? cs).map Int.ofNat

/-- The value domain of Python floats as used by this protocol code: an
exact rational, or one of the non-finite tokens. -/
inductive PyFloat
  | finite (q : ℚ)
  | inf
  | negInf
  | nan
deriving DecidableEq, Repr

/-- Zero, Python's `0.0`. -/
def PyFloat.zero : PyFloat := .finite 0

/-- Split a character list at the first character satisfying `p`; returns
the part before it and, when found, the part after it. -/
def splitAtFirst (p : Char → Bool) : List Char → List Char × Option (List Char)
  | [] => ([], none)
  | c :: rest =>
      if p c then ([], some rest)
      else
        let (pre, post) := splitAtFirst p rest
        (c :: pre, post)

/-- Parse the unsigned numeric body of a Python float literal:
`[digits] [. [digits]] [(e|E) [sign] digits]`, with at least one digit in
the integer-plus-fraction part, underscores as in `pyDigitsCount?`. -/
def pyFloatBody? (cs : List Char) : Option ℚ :=
  let (mantissa, expPart) := splitAtFirst (fun c => c = 'e' || c = 'E') cs
  let exponent? : Option Int :=
    match expPart with
    | none => some 0
    | some ecs =>
        match ecs with
        | '+' :: rest => (pyDigits? rest).map Int.ofNat
        | '-' :: rest => (pyDigits? rest).map (fun n => -(n : Int))
        | rest => (pyDigits? rest).map Int.ofNat
  let (intPart, fracPart) := splitAtFirst (fun c => c = '.') mantissa
  let intVal? : Option Nat :=
    match intPart with
    | [] => some 0
    | l => pyDigits? l
  let fracVal? : Option (Nat × Nat) :=
    match fracPart with
    | none => some (0, 0)
    | some [] => some (0, 0)
    | some l => pyDigitsCount? l
  -- at least one digit must appear before the exponent
  let hasDigit : Bool :=
    intPart ≠ [] || (match fracPart with | some (_ :: _) => true | _ => false)
  match intVal?, fracVal?, exponent? with
  | some iv, some (fv, k), some e =>
      if hasDigit then
        some (((iv : ℚ) + (fv : ℚ) / ((10 : ℚ) ^ k)) * (10 : ℚ) ^ e)
      else none
  | _, _, _ => none

/-- Python's `float(s)`: optional whitespace and sign, then either a
case-insensitive `inf`/`infinity`/`nan` token or a numeric literal.
Returns `none` where Python raises `ValueError`.  (Pure-decimal overflow to
`inf` is not reproduced; no property below depends on it.) -/
def pyFloat? (s : String) : Option PyFloat :=
  let cs := stripPySpace s.toList
  let (neg, body) :=
    match cs with
    | '+' :: rest => (false, rest)
    | '-' :: rest => (true, rest)
    | rest => (false, rest)
  let low := body.map lowerChar
  if low = "inf".toList || low = "infinity".toList then
    some (if neg then .negInf else .inf)
  else if low = "nan".toList then
    some .nan
  else
    (pyFloatBody? body).map (fun q => .finite (if neg then -q else q))

/-- Modelled from the spec: `parseIBDatetime` lives in `ib_insync/util.py`,
which is not among the sources under review, and the spec fixes no datetime
wire format.  It is modelled as a fallible parse of an epoch-seconds token,
succeeding exactly on nonnegative integer tokens; only its fallibility (the
`try/except` in `next_datetime`) matters to anything proved here. -/
def parseIBDatetime? (s : String) : Option Int :=
  match pyInt? s with
  | some n => if 0 ≤ n then some n else none
  | none => none

/-! ## The field cursor (`FieldIterator`, field_parser.py lines 18-110) -/

/-- The state of a `FieldIterator`: the token list, the current position and
the recorded length (set to `len(fields)` at construction). -/
structure Cursor where
  fields : List String
  index : Nat
  length : Nat
deriving DecidableEq, Repr

/-- `FieldIterator(fields, start_index)`. -/
def FieldIterator (fields : List String) (startIndex : Nat) : Cursor :=
  ⟨fields, startIndex, fields.length⟩

/-- `next(default)`: return the current token and advance, or the default
when exhausted.  (The `empty_to_none` flag is never passed by any caller in
the sources; its only effect is to post-process the returned value, not the
position.) -/
def Cursor.next (c : Cursor) (d : String) : String × Cursor :=
  (if c.index < c.length then c.fields.getD c.index "" else d,
   if c.index < c.length then { c with index := c.index + 1 } else c)

/-- `next_int(default)`: the token via `next`, then `int(value)` with the
default for an empty token or a `ValueError`. -/
def Cursor.nextInt (c : Cursor) (d : Int) : Int × Cursor :=
  let (v, c') := c.next ""
  (if v = "" then d else (pyInt? v).getD d, c')

/-- `next_float(default)`. -/
def Cursor.nextFloat (c : Cursor) (d : PyFloat) : PyFloat × Cursor :=
  let (v, c') := c.next ""
  (if v = "" then d else (pyFloat? v).getD d, c')

/-- `next_bool(default)`. -/
def Cursor.nextBool (c : Cursor) (d : Bool) : Bool × Cursor :=
  let (v, c') := c.next ""
  (if v = "" then d else (v = "1" || pyLower v = "true" : Bool), c')

/-- `next_datetime(default)`, datetimes as epoch values (`parseIBDatetime?`). -/
def Cursor.nextDatetime (c : Cursor) (d : Option Int) : Option Int × Cursor :=
  let (v, c') := c.next ""
  (if v = "" then d else (parseIBDatetime? v).elim d some, c')

/-- `peek(offset)`: inspect without consuming; Python's `None` is `none`. -/
def Cursor.peek (c : Cursor) (off : Nat) : Option String :=
  if c.index + off < c.length then some (c.fields.getD (c.index + off) "")
  else none

/-- `skip(count)`: advance, clamped to the length. -/
def Cursor.skip (c : Cursor) (n : Nat) : Cursor :=
  { c with index := min (c.index + n) c.length }

/-- `has_more()`. -/
def Cursor.hasMore (c : Cursor) : Bool := c.index < c.length

/-- `remaining()` (`max 0 (length - index)`; `Nat` subtraction clamps). -/
def Cursor.remaining (c : Cursor) : Nat := c.length - c.index

/-- `consume_rest()`: return and consume all remaining tokens. -/
def Cursor.consumeRest (c : Cursor) : List String × Cursor :=
  (c.fields.drop c.index, { c with index := c.length })

/-- The cursor's documented invariant: the position never exceeds the
length. -/
def Cursor.WF (c : Cursor) : Prop := c.index ≤ c.length

/-- The token `next` would read, for stating properties. -/
def Cursor.tok (c : Cursor) : String := c.fields.getD c.index ""

/-! ## Python dicts as association lists -/

/-- Assignment `dict[k] = v`: replace the binding of `k` if present,
otherwise append it. -/
def assocSet {K V : Type} [DecidableEq K] : List (K × V) → K → V → List (K × V)
  | [], k, v => [(k, v)]
  | (k', v') :: rest, k, v =>
      if k' = k then (k, v) :: rest else (k', v') :: assocSet rest k v

/-- Lookup `dict.get(k)`: `none` when absent. -/
def assocGet? {K V : Type} [DecidableEq K] : List (K × V) → K → Option V
  | [], _ => none
  | (k', v') :: rest, k => if k' = k then some v' else assocGet? rest k

/-! ## The message registry (`decoders/base.py` lines 105-214) -/

/-- A registered message class: its name, the `MESSAGE_ID` class attribute
(set by the `register_message` decorator) and its `from_fields` classmethod.
`from_fields(fields, server_version)` may raise (`.error`), return a parsed
message, or return Python `None` (`.ok none`, the suppressed result). -/
structure MessageClass (Msg : Type) where
  name : String
  messageId : Option Int
  fromFields : List String → Int → Except Unit (Option Msg)

/-- A handler callback: takes the consumer (wrapper) state and the message
and returns `some ()` when it raised, together with the new wrapper state
(mutations made before a raise persist, as in Python). -/
def HandlerFn (W Msg : Type) : Type := W → Msg → Option Unit × W

/-- `MessageRegistry`: the `msg_id -> message class` dict and the
`message class -> handler` dict.  Python keys the second dict by the class
object; classes are identified here by their (unique) names. -/
structure MessageRegistry (W Msg : Type) where
  messageClasses : List (Int × MessageClass Msg)
  handlers : List (String × HandlerFn W Msg)

/-- `MessageRegistry.__init__`: both dicts empty. -/
def emptyRegistry (W Msg : Type) : MessageRegistry W Msg := ⟨[], []⟩

/-- `register_message(msg_id)` applied to a class: sets `cls.MESSAGE_ID` and
assigns `self._message_classes[msg_id] = cls` (a plain dict assignment with
no occupancy check). -/
def registerMessage {W Msg : Type} (r : MessageRegistry W Msg) (msgId : Int)
    (cls : MessageClass Msg) : MessageRegistry W Msg :=
  { r with messageClasses :=
      assocSet r.messageClasses msgId { cls with messageId := some msgId } }

/-- `register_handler(message_cls)` applied to a function: assigns
`self._handlers[message_cls] = func` (again no occupancy check). -/
def registerHandler {W Msg : Type} (r : MessageRegistry W Msg) (clsName : String)
    (h : HandlerFn W Msg) : MessageRegistry W Msg :=
  { r with handlers := assocSet r.handlers clsName h }

/-- `get_message_class(msg_id)`: the class or `None`. -/
def getMessageClass {W Msg : Type} (r : MessageRegistry W Msg) (msgId : Int) :
    Option (MessageClass Msg) :=
  assocGet? r.messageClasses msgId

/-- `get_handler(message_cls)`: the handler or `None`. -/
def getHandler {W Msg : Type} (r : MessageRegistry W Msg) (clsName : String) :
    Option (HandlerFn W Msg) :=
  assocGet? r.handlers clsName

/-! ## The dispatcher (`decoders/dispatcher.py` lines 12-257) -/

/-- The integer statistics counters of a dispatcher.  The wall-clock
`processing_time` accumulator is outside this model. -/
structure Stats where
  messagesProcessed : Nat
  messagesFailed : Nat
  validationErrors : Nat
  unknownMessages : Nat
deriving DecidableEq, Repr

/-- The zeroed counters of `__init__` / `reset_statistics`. -/
def Stats.zero : Stats := ⟨0, 0, 0, 0⟩

/-- The consumer object: its mutable state plus its method table
(`getattr(self.wrapper, method_name, None)` is a lookup in `methods`). -/
structure Wrapper (W Msg : Type) where
  state : W
  methods : List (String × HandlerFn W Msg)

/-- An observable callback invocation made during one dispatch. -/
inductive HandlerCall (Msg : Type)
  | handler (clsName : String) (m : Msg)
  | wrapperMethod (methodName : String) (m : Msg)

/-- A `MessageDispatcher` instance. -/
structure Dispatcher (W Msg : Type) where
  wrapper : Wrapper W Msg
  registry : MessageRegistry W Msg
  serverVersion : Int
  stats : Stats
  messageCounts : List (Int × Nat)
  preProcessors : List (List String → Except Unit (List String))
  postProcessors : List (Msg → Option Unit)

/-- `MessageDispatcher.__init__`. -/
def mkDispatcher {W Msg : Type} (w : Wrapper W Msg) (r : MessageRegistry W Msg)
    (serverVersion : Int) : Dispatcher W Msg :=
  ⟨w, r, serverVersion, Stats.zero, [], [], []⟩

/-- `reset_statistics`. -/
def resetStatistics {W Msg : Type} (d : Dispatcher W Msg) : Dispatcher W Msg :=
  { d with stats := Stats.zero, messageCounts := [] }

/-- The outcome of one `dispatch` call: whether an exception escaped (only
processor callbacks can cause that), the returned message, the dispatcher
afterwards, and the callback invocations that occurred. -/
structure DispatchOut (W Msg : Type) where
  raised : Bool
  result : Option Msg
  disp : Dispatcher W Msg
  calls : List (HandlerCall Msg)

/-- `self.stats['messages_failed'] += 1`. -/
def failIncr {W Msg : Type} (d : Dispatcher W Msg) : Dispatcher W Msg :=
  { d with stats := { d.stats with messagesFailed := d.stats.messagesFailed + 1 } }

/-- `self.message_counts.get(msg_id, 0)`. -/
def countsGet (l : List (Int × Nat)) (k : Int) : Nat :=
  (assocGet? l k).getD 0

/-- `self.message_counts[msg_id] = self.message_counts.get(msg_id, 0) + 1`. -/
def countsIncr (l : List (Int × Nat)) (k : Int) : List (Int × Nat) :=
  assocSet l k (countsGet l k + 1)

/-- The statistics updates of dispatcher.py lines 90-92. -/
def statsIncr {W Msg : Type} (d : Dispatcher W Msg) (msgId : Int) : Dispatcher W Msg :=
  { d with
      stats := { d.stats with messagesProcessed := d.stats.messagesProcessed + 1 },
      messageCounts := countsIncr d.messageCounts msgId }

/-- `for processor in self.pre_processors: fields = processor(fields)`;
a raise propagates. -/
def runPreProcessors : List (List String → Except Unit (List String)) →
    List String → Except Unit (List String)
  | [], fs => .ok fs
  | p :: rest, fs =>
      match p fs with
      | .error e => .error e
      | .ok fs' => runPreProcessors rest fs'

/-- `for processor in self.post_processors: processor(message)`;
a raise propagates. -/
def runPostProcessors {Msg : Type} : List (Msg → Option Unit) → Msg → Option Unit
  | [], _ => none
  | p :: rest, m =>
      match p m with
      | some e => some e
      | none => runPostProcessors rest m

/-- `_call_wrapper_method`'s name derivation: lowercase the first character
of the class name, then strip a trailing `"Message"`. -/
def deriveMethodName (clsName : String) : String :=
  let l : List Char :=
    match clsName.toList with
    | [] => []
    | c :: rest => lowerChar c :: rest
  if 7 ≤ l.length && l.drop (l.length - 7) = "Message".toList then
    String.mk (l.take (l.length - 7))
  else
    String.mk l

/-- `_call_wrapper_method` (dispatcher.py lines 163-203): look the derived
method up on the wrapper; absent is a no-op; an exception inside the method
is caught and only logged (no counter).  `_call_wrapper_with_message`'s
unpacking of `req_id` changes only the Python argument shape, which this
model passes as the whole message. -/
def callWrapperMethod {W Msg : Type} (d : Dispatcher W Msg) (clsName : String)
    (m : Msg) : Dispatcher W Msg × List (HandlerCall Msg) :=
  let methodName := deriveMethodName clsName
  match assocGet? d.wrapper.methods methodName with
  | none => (d, [])
  | some f =>
      let (_, w') := f d.wrapper.state m
      ({ d with wrapper := { d.wrapper with state := w' } },
       [.wrapperMethod methodName m])

/-- The handler-or-fallback block of `dispatch` (dispatcher.py lines
124-137): call the registered handler, catching and counting an exception
it raises, or fall back to the derived wrapper method. -/
def handlerStep {W Msg : Type} (d : Dispatcher W Msg) (mc : MessageClass Msg)
    (m : Msg) : Dispatcher W Msg × List (HandlerCall Msg) :=
  match getHandler d.registry mc.name with
  | some h =>
      let (res, w') := h d.wrapper.state m
      let dh := { d with wrapper := { d.wrapper with state := w' } }
      (match res with
       | some _ => failIncr dh    -- handler raised: caught, counted
       | none => dh,
       [.handler mc.name m])
  | none => callWrapperMethod d mc.name m

/-- The body of `dispatch` after the message-id extraction and statistics
updates (dispatcher.py lines 94-143). -/
def dispatchAfterStats {W Msg : Type} (d : Dispatcher W Msg) (msgId : Int)
    (fields : List String) : DispatchOut W Msg :=
  match runPreProcessors d.preProcessors fields with
  | .error _ => ⟨true, none, d, []⟩
  | .ok fields' =>
    match getMessageClass d.registry msgId with
    | none =>
        -- unknown tag; `_call_legacy_handler` only logs
        ⟨false, none,
         { d with stats := { d.stats with unknownMessages := d.stats.unknownMessages + 1 } },
         []⟩
    | some mc =>
      match mc.fromFields fields' d.serverVersion with
      | .error _ => ⟨false, none, failIncr d, []⟩
      | .ok none => ⟨false, none, d, []⟩      -- suppressed message
      | .ok (some m) =>
        match runPostProcessors (handlerStep d mc m).1.postProcessors m with
        | some _ => ⟨true, none, (handlerStep d mc m).1, (handlerStep d mc m).2⟩
        | none => ⟨false, some m, (handlerStep d mc m).1, (handlerStep d mc m).2⟩

/-- `dispatch(fields)` (dispatcher.py lines 64-148).  The `finally` block
only accumulates wall-clock time and is outside the model. -/
def dispatch {W Msg : Type} (d : Dispatcher W Msg) (fields : List String) :
    DispatchOut W Msg :=
  match fields with
  | [] => ⟨false, none, failIncr d, []⟩             -- `if not fields`
  | f0 :: _ =>
    if f0 = "" then ⟨false, none, failIncr d, []⟩   -- `or not fields[0]`
    else
      match pyInt? f0 with
      | none => ⟨false, none, failIncr d, []⟩       -- `int(fields[0])` raised
      | some msgId => dispatchAfterStats (statsIncr d msgId) msgId fields

/-- Dispatch a stream of records in order on one dispatcher. -/
def dispatchAll {W Msg : Type} (d : Dispatcher W Msg) :
    List (List String) → Dispatcher W Msg
  | [] => d
  | fs :: rest => dispatchAll (dispatch d fs).disp rest

/-- The total of all per-tag counts. -/
def sumCounts (l : List (Int × Nat)) : Nat := (l.map (·.2)).sum

/-! ## Market-data messages (`decoders/models/market_data.py`) -/

/-- The fields of `PriceSizeTickMessage` (msg_id 1). -/
structure PriceSizeTick where
  reqId : Int
  tickType : Int
  price : PyFloat
  size : PyFloat
deriving DecidableEq, Repr

/-- The message records decoded by the embedded decoders. -/
inductive IBMsg
  | priceSizeTick (m : PriceSizeTick)
deriving DecidableEq, Repr

/-- `PriceSizeTickMessage.from_fields` (market_data.py lines 26-46): skip the
message id and version, read `req_id`, `tick_type`, then the raw `price` and
`size` tokens; an empty price token suppresses the message (`return None`);
otherwise `float(price)` / `float(size) if size else 0.0` may raise. -/
def priceSizeTickFromFields (fields : List String) (_serverVersion : Int) :
    Except Unit (Option IBMsg) :=
  let it := FieldIterator fields 0
  let it := it.skip 2
  let (reqId, it) := it.nextInt 0
  let (tickType, it) := it.nextInt 0
  let (price, it) := it.next ""
  let (size, _) := it.next ""
  if price = "" then .ok none
  else
    match pyFloat? price with
    | none => .error ()
    | some p =>
        match (if size = "" then some PyFloat.zero else pyFloat? size) with
        | none => .error ()
        | some sz => .ok (some (.priceSizeTick ⟨reqId, tickType, p, sz⟩))

/-- The registered class for msg_id 1. -/
def priceSizeTickClass : MessageClass IBMsg :=
  ⟨"PriceSizeTickMessage", some 1, priceSizeTickFromFields⟩

/-! ## The contract resolver (`contract/adapter.py`, `specialized.py`,
`base.py`, `enums.py`)

`ContractAdapter.parse` validates an attribute dictionary first against the
discriminated union of the specialized contract classes and, when that
raises `ValidationError`, against the base `Contract` class.  The embedding
keeps the attributes these validations actually inspect; values are already
typed (`strike` numeric, the rest strings), matching the claim's inputs. -/

/-- The values of `SecurityType` (enums.py lines 6-25); note the enum has no
`_missing_` hook, so any other string is rejected wherever a field is typed
`SecurityType`. -/
def securityTypeValues : List String :=
  ["STK", "OPT", "FUT", "CONTFUT", "CASH", "IND", "CFD", "BOND", "CMDTY",
   "FOP", "FUND", "WAR", "IOPT", "BAG", "CRYPTO", "NEWS", "EVENT"]

/-- The values of `Exchange` (enums.py lines 55-126); its `_missing_`
returns `None`, which the `Enum` machinery treats as lookup failure, so a
field typed exactly `Exchange` rejects any other string. -/
def exchangeValues : List String :=
  ["SMART", "NYSE", "NASDAQ", "AMEX", "ARCA", "ISLAND", "BATS", "IEX",
   "EDGEA", "BYX", "CBOE", "ISE", "PHLX", "BOX", "GLOBEX", "ECBOT", "NYMEX",
   "COMEX", "CBOT", "ICE", "CFE", "NYBOT", "IBIS", "LSE", "SBF", "AEB",
   "BVME", "IBIS2", "FWB", "SWB", "BATEEN", "SEHK", "HKFE", "TSE", "OSE.JPN",
   "SGX", "NSE", "ASX", "SNFE", "TSX", "VENTURE", "MX", "IDEALPRO", "FXCONV",
   "PAXOS"]

/-- The values of `Currency` (enums.py lines 129-186); like `Exchange`, its
`_missing_` returns `None`, so a field typed exactly `Currency` rejects any
other string. -/
def currencyValues : List String :=
  ["USD", "EUR", "GBP", "JPY", "CHF", "CAD", "AUD", "NZD", "CNH", "CNY",
   "HKD", "SGD", "KRW", "INR", "THB", "MYR", "IDR", "PHP", "TWD", "SEK",
   "NOK", "DKK", "PLN", "CZK", "HUF", "RON", "RUB", "TRY", "ILS", "ZAR",
   "AED", "SAR", "MXN", "BRL", "ARS", "CLP", "COP", "PEN"]

/-- The attribute dictionary fed to `ContractAdapter.parse`, restricted to
the attributes the validations inspect.  An absent key is `none`;
`combo_legs` is a list whose entries carry no further structure (only its
emptiness is inspected, by `Bag.validate_combo_legs`). -/
structure AttrBag where
  symbol : Option String
  security_type : Option String
  strike : Option ℚ
  option_type : Option String
  exchange : Option String
  currency : Option String
  combo_legs : List Unit
deriving DecidableEq, Repr

/-- The empty attribute dictionary. -/
def AttrBag.empty : AttrBag := ⟨none, none, none, none, none, none, []⟩

/-- Validation of the base `Contract.option_type` field
(`OptionType | None` with the `""` to `None` before-validator,
base.py lines 152-158). -/
def optionTypeBaseOk (ot : Option String) : Bool :=
  match ot with
  | none => true
  | some s => s = "" || s = "C" || s = "P"

/-- Validation of a required `option_type: OptionType` field (`Option` /
`FuturesOption`): the key must be present and, after the inherited `""` to
`None` conversion, a valid `OptionType` member. -/
def optionTypeRequiredOk (ot : Option String) : Bool :=
  match ot with
  | none => false
  | some s => s = "C" || s = "P"

/-- Validation of an optional field typed exactly `Exchange`. -/
def exchangeStrictOk (e : Option String) : Bool :=
  match e with
  | none => true
  | some s => exchangeValues.contains s

/-- Validation of an optional field typed exactly `Currency`. -/
def currencyStrictOk (c : Option String) : Bool :=
  match c with
  | none => true
  | some s => currencyValues.contains s

/-- A required `strike: Decimal = Field(..., gt=0)`. -/
def strikeRequiredPos (q : Option ℚ) : Bool :=
  match q with
  | none => false
  | some v => decide (0 < v)

/-- The variants of `SpecializedContractUnion` plus the base fallback. -/
inductive ContractVariant
  | base | stock | option | future | contFuture | forex | index | cfd | bond
  | commodity | futuresOption | mutualFund | warrant | bag | crypto
deriving DecidableEq, Repr

/-- Validation against `SpecializedContractUnion` (adapter.py lines 27-30):
the `security_type` discriminator selects the one variant with that literal
and that variant's field types and model validators run
(specialized.py); a missing or unrecognized discriminator, or a failing
variant validation, is a `ValidationError` (`.error`). -/
def validateSpecialized (b : AttrBag) : Except Unit ContractVariant :=
  match b.security_type with
  | none => .error ()                     -- discriminator tag not found
  | some d =>
      if d = "STK" then
        -- Stock: `exchange: Exchange`, `currency: Currency` (with defaults)
        if exchangeStrictOk b.exchange && currencyStrictOk b.currency
            && optionTypeBaseOk b.option_type then .ok .stock else .error ()
      else if d = "OPT" then
        -- Option: required strike > 0 and option_type, strict exchange/currency
        if strikeRequiredPos b.strike && optionTypeRequiredOk b.option_type
            && exchangeStrictOk b.exchange && currencyStrictOk b.currency
          then .ok .option else .error ()
      else if d = "FUT" then
        -- Future: `exchange: Exchange = Field(...)` is required
        if (match b.exchange with
            | some s => exchangeValues.contains s
            | none => false)
            && currencyStrictOk b.currency && optionTypeBaseOk b.option_type
          then .ok .future else .error ()
      else if d = "CONTFUT" then
        if currencyStrictOk b.currency && optionTypeBaseOk b.option_type
          then .ok .contFuture else .error ()
      else if d = "CASH" then
        -- Forex: strict exchange (default IDEALPRO); `pair` handling is not
        -- exercised by any claim input
        if exchangeStrictOk b.exchange && optionTypeBaseOk b.option_type
          then .ok .forex else .error ()
      else if d = "IND" then
        if currencyStrictOk b.currency && optionTypeBaseOk b.option_type
          then .ok .index else .error ()
      else if d = "CFD" then
        if optionTypeBaseOk b.option_type then .ok .cfd else .error ()
      else if d = "BOND" then
        if optionTypeBaseOk b.option_type then .ok .bond else .error ()
      else if d = "CMDTY" then
        if optionTypeBaseOk b.option_type then .ok .commodity else .error ()
      else if d = "FOP" then
        if strikeRequiredPos b.strike && optionTypeRequiredOk b.option_type
            && currencyStrictOk b.currency
          then .ok .futuresOption else .error ()
      else if d = "FUND" then
        if optionTypeBaseOk b.option_type then .ok .mutualFund else .error ()
      else if d = "WAR" then
        if optionTypeBaseOk b.option_type then .ok .warrant else .error ()
      else if d = "BAG" then
        -- Bag: `validate_combo_legs` requires a non-empty leg list
        if (!b.combo_legs.isEmpty) && optionTypeBaseOk b.option_type
          then .ok .bag else .error ()
      else if d = "CRYPTO" then
        if exchangeStrictOk b.exchange && currencyStrictOk b.currency
            && optionTypeBaseOk b.option_type then .ok .crypto else .error ()
      else .error ()                      -- discriminator matches no variant

/-- `Contract.model_validate` on the base class: `security_type` is typed
`SecurityType | None` (no `_missing_` rescue), `option_type` has the `""` to
`None` validator, and `exchange`/`currency` are `... | str | None` so any
string passes. -/
def contractModelValidateOk (b : AttrBag) : Bool :=
  (match b.security_type with
   | none => true
   | some s => securityTypeValues.contains s)
  && optionTypeBaseOk b.option_type

/-- `ContractAdapter.parse` (adapter.py lines 43-65): try the discriminated
union; on `ValidationError` fall back to `Contract.model_validate(data)` —
which is *not* wrapped in a `try` and raises (`.error`) when the base
validation fails too. -/
def contractAdapterParse (b : AttrBag) : Except Unit (ContractVariant × AttrBag) :=
  match validateSpecialized b with
  | .ok v => .ok (v, b)
  | .error _ =>
      if contractModelValidateOk b then .ok (.base, b) else .error ()

/-! ## The decode monad for the long linear decoders

A Python decode procedure mutates one `FieldIterator` and may raise; its
embedding is a state transformer over `Cursor` that may fail. -/

/-- The decode monad: cursor state plus exceptions. -/
abbrev DecodeM (α : Type) : Type := StateT Cursor (Except Unit) α

/-- `it.next()` (plain, default `''`). -/
def nextM : DecodeM String := fun c => .ok (c.next "")

/-- `it.next_int()` (default 0). -/
def nextIntM : DecodeM Int := fun c => .ok (c.nextInt 0)

/-- `it.next_float()` (default 0.0). -/
def nextFloatM : DecodeM PyFloat := fun c => .ok (c.nextFloat PyFloat.zero)

/-- `it.next_bool()` (default False). -/
def nextBoolM : DecodeM Bool := fun c => .ok (c.nextBool false)

/-- `it.skip(n)`. -/
def skipM (n : Nat) : DecodeM Unit := fun c => .ok ((), c.skip n)

/-- Run a possibly-raising Python expression inside a decode. -/
def liftE {α : Type} (e : Except Unit α) : DecodeM α := fun c => e.map (·, c)

/-! ## Attribute containers for the order decoders

`Order`, `OrderState`, `OrderComboLeg`, `OrderCondition` and
`SoftDollarTier` come from `ib_insync/order.py`, which is not among the
sources under review.  Modelled from the spec: they are "passive
value/record types ... they are consumed/produced by the decoders but
contain no logic", so they are embedded as attribute maps on which every
assignment succeeds.  `Contract`, `ComboLeg` and `ContractDetails`, by
contrast, ARE sources under review (`contract/base.py`, `contract/details.py`):
they are pydantic models with `validate_assignment=True` and no `extra`
allowance, whose `__setattr__` raises `ValueError` for any name that is not
a declared field. -/

/-- A Python attribute value as stored by the decoders. -/
inductive FieldVal
  | s (v : String)
  | i (v : Int)
  | f (v : PyFloat)
  | b (v : Bool)
  | tags (v : List (String × String))
  | prices (v : List PyFloat)
  | conds (v : List Int)
deriving DecidableEq, Repr

/-- A passive attribute container (legacy `Order` / `OrderState`). -/
abbrev AttrMap : Type := List (String × FieldVal)

/-- Attribute assignment on a passive container: always succeeds. -/
def oset (m : AttrMap) (k : String) (v : FieldVal) : AttrMap := assocSet m k v

/-- The pydantic `Contract` model's declared fields that the decoders
touch (base.py lines 97-145; the remaining declared fields are never
assigned by any decoder under review). -/
structure ContractRec where
  contract_id : Int
  symbol : Option String
  security_type : Option String
  last_trade_date_or_contract_month : Option String
  strike : ℚ
  option_type : Option String
  multiplier : Option String
  exchange : Option String
  currency : Option String
  local_symbol : Option String
  trading_class : Option String
deriving DecidableEq, Repr

/-- `Contract()`: all defaults. -/
def ContractRec.init : ContractRec :=
  ⟨0, none, none, none, 0, none, none, none, none, none, none⟩

/-- Pydantic `__setattr__` on `Contract` under `validate_assignment=True`:
a declared (snake_case) field validates and stores the value; any other
name — in particular every legacy camelCase name the order decoders use —
raises `ValueError` (`.error`). -/
def contractSetAttr (c : ContractRec) (name : String) (v : FieldVal) :
    Except Unit ContractRec :=
  match name, v with
  | "contract_id", .i n => .ok { c with contract_id := n }
  | "symbol", .s s => .ok { c with symbol := some s }
  | "security_type", .s s =>
      if securityTypeValues.contains s then .ok { c with security_type := some s }
      else .error ()
  | "last_trade_date_or_contract_month", .s s =>
      .ok { c with last_trade_date_or_contract_month := some s }
  | "strike", .f p =>
      -- Decimal field: accepts a finite float, rejects inf/nan
      match p with
      | .finite q => .ok { c with strike := q }
      | _ => .error ()
  | "option_type", .s s =>
      if s = "" then .ok { c with option_type := none }
      else if s = "C" || s = "P" then .ok { c with option_type := some s }
      else .error ()
  | "multiplier", .s s => .ok { c with multiplier := some s }
  | "exchange", .s s => .ok { c with exchange := some s }
  | "currency", .s s => .ok { c with currency := some s }
  | "local_symbol", .s s => .ok { c with local_symbol := some s }
  | "trading_class", .s s => .ok { c with trading_class := some s }
  | _, _ => .error ()

/-- The pydantic `ComboLeg` model (base.py lines 22-48); its declared field
for the leg ratio is named `ratio` in the source (spelled `ratioVal` here
only to satisfy local naming constraints). -/
structure ComboLegRec where
  contractId : Int
  ratioVal : Option Int
  action : Option String
  exchange : Option String
  openClose : Int
  shortSaleSlot : Int
  designatedLocation : Option String
  exemptCode : Int
deriving DecidableEq, Repr

/-- `ComboLeg()`: defaults. -/
def ComboLegRec.init : ComboLegRec := ⟨0, none, none, none, 0, 0, none, -1⟩

/-- Pydantic `__setattr__` on `ComboLeg`: declared fields are
`contract_id`, `ratio`, `action`, `exchange`, `open_close`,
`short_sale_slot`, `designated_location`, `exempt_code`; the decoders'
legacy names (`conId`, `openClose`, ...) raise, while `ratio`, `action`
and `exchange` happen to coincide and succeed. -/
def comboLegSetAttr (l : ComboLegRec) (name : String) (v : FieldVal) :
    Except Unit ComboLegRec :=
  match name, v with
  | "contract_id", .i n => .ok { l with contractId := n }
  | "ratio", .i n => .ok { l with ratioVal := some n }
  | "action", .s s => .ok { l with action := some s }
  | "exchange", .s s => .ok { l with exchange := some s }
  | "open_close", .i n => .ok { l with openClose := n }
  | "short_sale_slot", .i n => .ok { l with shortSaleSlot := n }
  | "designated_location", .s s => .ok { l with designatedLocation := some s }
  | "exempt_code", .i n => .ok { l with exemptCode := n }
  | _, _ => .error ()

/-- The pydantic `ContractDetails` model (details.py lines 23-100),
restricted to `contract` plus the three declared fields whose names the
decoder actually spells correctly (`industry`, `category`, `subcategory`);
every other assignment made by `parse_contract_details` uses a camelCase
name that is not a declared field. -/
structure ContractDetailsRec where
  contract : Option ContractRec
  industry : Option String
  category : Option String
  subcategory : Option String
deriving DecidableEq, Repr

/-- `ContractDetails()`. -/
def ContractDetailsRec.init : ContractDetailsRec := ⟨none, none, none, none⟩

/-- Pydantic `__setattr__` on `ContractDetails` (the `contract` assignment
is done as a direct update where it occurs, since `contract` is declared). -/
def detailsSetAttr (dd : ContractDetailsRec) (name : String) (v : FieldVal) :
    Except Unit ContractDetailsRec :=
  match name, v with
  | "industry", .s s => .ok { dd with industry := some s }
  | "category", .s s => .ok { dd with category := some s }
  | "subcategory", .s s => .ok { dd with subcategory := some s }
  | _, _ => .error ()

/-- Modelled from the spec: `UNSET_DOUBLE`, the reserved "unset double"
sentinel (`ib_insync/util.py`, not among the sources under review; the
spec: "Two reserved numeric sentinels represent 'unset double' and 'unset
integer'").  Its runtime value is `sys.float_info.max`. -/
def UNSET_DOUBLE : PyFloat := .finite ((17976931348623157 : ℚ) * 10 ^ (292 : ℕ))

/-- Python `<` on floats: `nan` is incomparable; infinities order as
expected. -/
def PyFloat.lt : PyFloat → PyFloat → Bool
  | .finite a, .finite b => decide (a < b)
  | .finite _, .inf => true
  | .negInf, .finite _ => true
  | .negInf, .inf => true
  | _, _ => false

/-- `Contract.parse` = `ParseableModel.parse` specialised to `Contract`
(parseable_model.py lines 31-47, base.py lines 97-109): read one token for
each of the eleven `_parser_fields` in order, then `model_validate` the
resulting dict — which raises when `contract_id` is not an integer string,
`security_type` is not a `SecurityType` value (the empty string included),
`strike` is not a finite decimal string, or `option_type` is neither empty
nor `C`/`P`. -/
def contractParseM : DecodeM ContractRec := do
  let contractId ← nextM
  let symbol ← nextM
  let securityType ← nextM
  let lastTrade ← nextM
  let strike ← nextM
  let optionType ← nextM
  let multiplier ← nextM
  let exchange ← nextM
  let currency ← nextM
  let localSymbol ← nextM
  let tradingClass ← nextM
  match pyInt? contractId with
  | none => throw ()
  | some cid =>
  if !(securityTypeValues.contains securityType) then throw () else
  match pyFloat? strike with
  | some (.finite q) =>
      if optionType = "" || optionType = "C" || optionType = "P" then
        pure ⟨cid, some symbol, some securityType, some lastTrade, q,
              (if optionType = "" then none else some optionType),
              some multiplier, some exchange, some currency, some localSymbol,
              some tradingClass⟩
      else throw ()
  | _ => throw ()

/-- Read `count` `TagValue(tag, value)` pairs (`TagValue` is a
`NamedTuple`, so positional construction succeeds). -/
def readTagValuePairsM : Nat → DecodeM (List (String × String))
  | 0 => pure []
  | n + 1 => do
      let tag ← nextM
      let value ← nextM
      let rest ← readTagValuePairsM n
      pure ((tag, value) :: rest)

/-- `FieldParser.parse_contract_details` (field_parser.py lines 131-186).
Its first own assignment, `details.marketName = fields.next()`, targets a
name the pydantic `ContractDetails` model does not declare (the field is
`market_name`), so it raises `ValueError` after consuming the token; every
line after it is unreachable but is transliterated regardless. -/
def parse_contract_details (serverVersion : Int) : DecodeM ContractDetailsRec := do
  let contract ← contractParseM
  -- `details.contract = ...`: `contract` is a declared field, succeeds
  let details : ContractDetailsRec := { ContractDetailsRec.init with contract := some contract }
  let v ← nextM
  let details ← liftE (detailsSetAttr details "marketName" (.s v))   -- raises
  let v ← nextFloatM
  let details ← liftE (detailsSetAttr details "minTick" (.f v))
  let v ← nextM
  let details ← liftE (detailsSetAttr details "orderTypes" (.s v))
  let v ← nextM
  let details ← liftE (detailsSetAttr details "validExchanges" (.s v))
  let v ← nextIntM
  let details ← liftE (detailsSetAttr details "priceMagnifier" (.i v))
  let v ← nextIntM
  let details ← liftE (detailsSetAttr details "underConId" (.i v))
  let v ← nextM
  let details ← liftE (detailsSetAttr details "longName" (.s v))
  let v ← nextM
  let details ← liftE (detailsSetAttr details "contractMonth" (.s v))
  let v ← nextM
  let details ← liftE (detailsSetAttr details "industry" (.s v))
  let v ← nextM
  let details ← liftE (detailsSetAttr details "category" (.s v))
  let v ← nextM
  let details ← liftE (detailsSetAttr details "subcategory" (.s v))
  let v ← nextM
  let details ← liftE (detailsSetAttr details "timeZoneId" (.s v))
  let v ← nextM
  let details ← liftE (detailsSetAttr details "tradingHours" (.s v))
  let v ← nextM
  let details ← liftE (detailsSetAttr details "liquidHours" (.s v))
  let v ← nextM
  let details ← liftE (detailsSetAttr details "evRule" (.s v))
  let v ← nextIntM
  let details ← liftE (detailsSetAttr details "evMultiplier" (.i v))
  -- security ID list
  let numSecIds ← nextIntM
  let details ←
    if 0 < numSecIds then do
      let details ← liftE (detailsSetAttr details "secIdList" (.tags []))
      let pairs ← readTagValuePairsM numSecIds.toNat
      liftE (detailsSetAttr details "secIdList" (.tags pairs))
    else
      pure details
  let v ← nextIntM
  let details ← liftE (detailsSetAttr details "aggGroup" (.i v))
  let v ← nextM
  let details ← liftE (detailsSetAttr details "underSymbol" (.s v))
  let v ← nextM
  let details ← liftE (detailsSetAttr details "underSecType" (.s v))
  let v ← nextM
  let details ← liftE (detailsSetAttr details "marketRuleIds" (.s v))
  let v ← nextM
  let details ← liftE (detailsSetAttr details "realExpirationDate" (.s v))
  let v ← nextM
  let details ← liftE (detailsSetAttr details "stockType" (.s v))
  -- version-specific fields
  let details ←
    if serverVersion ≥ 164 then do
      let v ← nextFloatM
      let details ← liftE (detailsSetAttr details "minSize" (.f v))
      let v ← nextFloatM
      let details ← liftE (detailsSetAttr details "sizeIncrement" (.f v))
      let v ← nextFloatM
      liftE (detailsSetAttr details "suggestedSizeIncrement" (.f v))
    else
      pure details
  pure details

/-! ## The order decoders (`decoders/models/orders.py`) -/

/-- One combo leg of the open/completed-order grammar (orders.py lines
168-178 / 534-544): `leg = ComboLeg()` then eight assignments; the first,
`leg.conId`, already raises on the pydantic `ComboLeg` model. -/
def readComboLegM : DecodeM ComboLegRec := do
  let leg := ComboLegRec.init
  let v ← nextIntM
  let leg ← liftE (comboLegSetAttr leg "conId" (.i v))      -- raises
  let v ← nextIntM
  let leg ← liftE (comboLegSetAttr leg "ratio" (.i v))
  let v ← nextM
  let leg ← liftE (comboLegSetAttr leg "action" (.s v))
  let v ← nextM
  let leg ← liftE (comboLegSetAttr leg "exchange" (.s v))
  let v ← nextIntM
  let leg ← liftE (comboLegSetAttr leg "openClose" (.i v))
  let v ← nextIntM
  let leg ← liftE (comboLegSetAttr leg "shortSaleSlot" (.i v))
  let v ← nextM
  let leg ← liftE (comboLegSetAttr leg "designatedLocation" (.s v))
  let v ← nextIntM
  let leg ← liftE (comboLegSetAttr leg "exemptCode" (.i v))
  pure leg

/-- `for _ in range(num_legs)` around `readComboLegM`. -/
def readComboLegsM : Nat → DecodeM (List ComboLegRec)
  | 0 => pure []
  | n + 1 => do
      let leg ← readComboLegM
      let rest ← readComboLegsM n
      pure (leg :: rest)

/-- `OrderComboLeg()` legs: one `next_float` price each (`OrderComboLeg` is
a passive legacy record, assignment succeeds). -/
def readOrderComboLegPricesM : Nat → DecodeM (List PyFloat)
  | 0 => pure []
  | n + 1 => do
      let p ← nextFloatM
      let rest ← readOrderComboLegPricesM n
      pure (p :: rest)

/-- Order-condition entries: the decoders read only the condition-type tag
and build `OrderCondition.createClass(cond_type)(cond_type)` (a passive
legacy object), never the condition's own field grammar. -/
def readCondTypesM : Nat → DecodeM (List Int)
  | 0 => pure []
  | n + 1 => do
      let t ← nextIntM
      let rest ← readCondTypesM n
      pure (t :: rest)

/-- The hedge block shared verbatim by the open-order and completed-order
decoders (orders.py lines 212-215 and 578-581):
`order.hedgeType = it.next()` then, only when that token is non-empty
(Python truthiness), `order.hedgeParam = it.next()`. -/
def readHedgeFields : DecodeM (String × Option String) := do
  let hedgeType ← nextM
  if hedgeType ≠ "" then
    let hedgeParam ← nextM
    pure (hedgeType, some hedgeParam)
  else
    pure (hedgeType, none)

/-- The protocol-version-gated tail of `OpenOrderMessage.from_fields`
(orders.py lines 301-313): `duration` at 159, `postToAts` at 160,
`autoCancelParent` at 162, and the five fields from `minTradeQty` onward at
170. -/
def readVersionGatedTail (serverVersion : Int) (order : AttrMap) : DecodeM AttrMap := do
  let order ←
    if serverVersion ≥ 159 then do
      let v ← nextIntM
      pure (oset order "duration" (.i v))
    else pure order
  let order ←
    if serverVersion ≥ 160 then do
      let v ← nextIntM
      pure (oset order "postToAts" (.i v))
    else pure order
  let order ←
    if serverVersion ≥ 162 then do
      let v ← nextBoolM
      pure (oset order "autoCancelParent" (.b v))
    else pure order
  let order ←
    if serverVersion ≥ 170 then do
      let v ← nextIntM
      let order := oset order "minTradeQty" (.i v)
      let v ← nextIntM
      let order := oset order "minCompeteSize" (.i v)
      let v ← nextFloatM
      let order := oset order "competeAgainstBestOffset" (.f v)
      let v ← nextFloatM
      let order := oset order "midOffsetAtWhole" (.f v)
      let v ← nextFloatM
      pure (oset order "midOffsetAtHalf" (.f v))
    else pure order
  pure order

/-- `OpenOrderMessage.from_fields` (orders.py lines 67-315).  The third
statement, `contract.conId = it.next_int()`, assigns a name the pydantic
`Contract` model does not declare (the field is `contract_id`), so the
decode raises `ValueError` after consuming two tokens beyond the skipped
message id; everything after it is unreachable but transliterated. -/
def openOrderFromFields (serverVersion : Int) :
    DecodeM (AttrMap × ContractRec × AttrMap) := do
  skipM 1
  let order : AttrMap := []
  let contract := ContractRec.init
  let oState : AttrMap := []
  -- basic order and contract info
  let v ← nextIntM
  let order := oset order "orderId" (.i v)
  let v ← nextIntM
  let contract ← liftE (contractSetAttr contract "conId" (.i v))    -- raises
  let v ← nextM
  let contract ← liftE (contractSetAttr contract "symbol" (.s v))
  let v ← nextM
  let contract ← liftE (contractSetAttr contract "secType" (.s v))
  let v ← nextM
  let contract ← liftE (contractSetAttr contract "lastTradeDateOrContractMonth" (.s v))
  let v ← nextFloatM
  let contract ← liftE (contractSetAttr contract "strike" (.f v))
  let v ← nextM
  let contract ← liftE (contractSetAttr contract "right" (.s v))
  let v ← nextM
  let contract ← liftE (contractSetAttr contract "multiplier" (.s v))
  let v ← nextM
  let contract ← liftE (contractSetAttr contract "exchange" (.s v))
  let v ← nextM
  let contract ← liftE (contractSetAttr contract "currency" (.s v))
  let v ← nextM
  let contract ← liftE (contractSetAttr contract "localSymbol" (.s v))
  let v ← nextM
  let contract ← liftE (contractSetAttr contract "tradingClass" (.s v))
  let v ← nextM
  let order := oset order "action" (.s v)
  let v ← nextFloatM
  let order := oset order "totalQuantity" (.f v)
  let orderType ← nextM
  let order := oset order "orderType" (.s orderType)
  let v ← nextFloatM
  let order := oset order "lmtPrice" (.f v)
  let v ← nextFloatM
  let order := oset order "auxPrice" (.f v)
  let v ← nextM
  let order := oset order "tif" (.s v)
  let v ← nextM
  let order := oset order "ocaGroup" (.s v)
  let v ← nextM
  let order := oset order "account" (.s v)
  let v ← nextM
  let order := oset order "openClose" (.s v)
  let v ← nextIntM
  let order := oset order "origin" (.i v)
  let v ← nextM
  let order := oset order "orderRef" (.s v)
  let v ← nextIntM
  let order := oset order "clientId" (.i v)
  let v ← nextIntM
  let order := oset order "permId" (.i v)
  let v ← nextBoolM
  let order := oset order "outsideRth" (.b v)
  let v ← nextBoolM
  let order := oset order "hidden" (.b v)
  let v ← nextFloatM
  let order := oset order "discretionaryAmt" (.f v)
  let v ← nextM
  let order := oset order "goodAfterTime" (.s v)
  skipM 1        -- skip deprecated field
  let v ← nextM
  let order := oset order "faGroup" (.s v)
  let v ← nextM
  let order := oset order "faMethod" (.s v)
  let v ← nextM
  let order := oset order "faPercentage" (.s v)
  let order ←
    if serverVersion < 177 then do
      let v ← nextM
      pure (oset order "faProfile" (.s v))
    else pure order
  let v ← nextM
  let order := oset order "modelCode" (.s v)
  let v ← nextM
  let order := oset order "goodTillDate" (.s v)
  let v ← nextM
  let order := oset order "rule80A" (.s v)
  let v ← nextFloatM
  let order := oset order "percentOffset" (.f v)
  let v ← nextM
  let order := oset order "settlingFirm" (.s v)
  let v ← nextIntM
  let order := oset order "shortSaleSlot" (.i v)
  let v ← nextM
  let order := oset order "designatedLocation" (.s v)
  let v ← nextIntM
  let order := oset order "exemptCode" (.i v)
  let v ← nextIntM
  let order := oset order "auctionStrategy" (.i v)
  let v ← nextFloatM
  let order := oset order "startingPrice" (.f v)
  let v ← nextFloatM
  let order := oset order "stockRefPrice" (.f v)
  let v ← nextFloatM
  let order := oset order "delta" (.f v)
  let v ← nextFloatM
  let order := oset order "stockRangeLower" (.f v)
  let v ← nextFloatM
  let order := oset order "stockRangeUpper" (.f v)
  let v ← nextIntM
  let order := oset order "displaySize" (.i v)
  let v ← nextBoolM
  let order := oset order "blockOrder" (.b v)
  let v ← nextBoolM
  let order := oset order "sweepToFill" (.b v)
  let v ← nextBoolM
  let order := oset order "allOrNone" (.b v)
  let v ← nextIntM
  let order := oset order "minQty" (.i v)
  let v ← nextIntM
  let order := oset order "ocaType" (.i v)
  let v ← nextBoolM
  let order := oset order "eTradeOnly" (.b v)
  let v ← nextBoolM
  let order := oset order "firmQuoteOnly" (.b v)
  let v ← nextFloatM
  let order := oset order "nbboPriceCap" (.f v)
  let v ← nextIntM
  let order := oset order "parentId" (.i v)
  let v ← nextIntM
  let order := oset order "triggerMethod" (.i v)
  let v ← nextFloatM
  let order := oset order "volatility" (.f v)
  let v ← nextIntM
  let order := oset order "volatilityType" (.i v)
  let deltaNeutralOrderType ← nextM
  let order := oset order "deltaNeutralOrderType" (.s deltaNeutralOrderType)
  let v ← nextFloatM
  let order := oset order "deltaNeutralAuxPrice" (.f v)
  -- delta neutral block, gated on the just-read order type being non-empty
  let order ←
    if deltaNeutralOrderType ≠ "" then do
      let v ← nextIntM
      let order := oset order "deltaNeutralConId" (.i v)
      let v ← nextM
      let order := oset order "deltaNeutralSettlingFirm" (.s v)
      let v ← nextM
      let order := oset order "deltaNeutralClearingAccount" (.s v)
      let v ← nextM
      let order := oset order "deltaNeutralClearingIntent" (.s v)
      let v ← nextM
      let order := oset order "deltaNeutralOpenClose" (.s v)
      let v ← nextBoolM
      let order := oset order "deltaNeutralShortSale" (.b v)
      let v ← nextIntM
      let order := oset order "deltaNeutralShortSaleSlot" (.i v)
      let v ← nextM
      pure (oset order "deltaNeutralDesignatedLocation" (.s v))
    else pure order
  let v ← nextBoolM
  let order := oset order "continuousUpdate" (.b v)
  let v ← nextIntM
  let order := oset order "referencePriceType" (.i v)
  let v ← nextFloatM
  let order := oset order "trailStopPrice" (.f v)
  let v ← nextFloatM
  let order := oset order "trailingPercent" (.f v)
  let v ← nextFloatM
  let order := oset order "basisPoints" (.f v)
  let v ← nextIntM
  let order := oset order "basisPointsType" (.i v)
  let v ← nextM
  let contract ← liftE (contractSetAttr contract "comboLegsDescrip" (.s v))
  -- combo legs
  let numLegs ← nextIntM
  let contract ← liftE (contractSetAttr contract "comboLegs" (.tags []))
  let _legs ← readComboLegsM numLegs.toNat
  -- order combo legs
  let numOrderLegs ← nextIntM
  let prices ← readOrderComboLegPricesM numOrderLegs.toNat
  let order := oset order "orderComboLegs" (.prices prices)
  -- smart combo routing params
  let numParams ← nextIntM
  let order ←
    if 0 < numParams then do
      let pairs ← readTagValuePairsM numParams.toNat
      pure (oset order "smartComboRoutingParams" (.tags pairs))
    else pure order
  -- scale order fields
  let v ← nextIntM
  let order := oset order "scaleInitLevelSize" (.i v)
  let v ← nextIntM
  let order := oset order "scaleSubsLevelSize" (.i v)
  let increment ← nextM
  let scalePriceIncrement ←
    if increment ≠ "" then
      match pyFloat? increment with
      | some p => pure p
      | none => throw ()          -- `float(increment)` raised
    else pure UNSET_DOUBLE
  let order := oset order "scalePriceIncrement" (.f scalePriceIncrement)
  let order ←
    if PyFloat.lt (.finite 0) scalePriceIncrement
        && PyFloat.lt scalePriceIncrement UNSET_DOUBLE then do
      let v ← nextFloatM
      let order := oset order "scalePriceAdjustValue" (.f v)
      let v ← nextIntM
      let order := oset order "scalePriceAdjustInterval" (.i v)
      let v ← nextFloatM
      let order := oset order "scaleProfitOffset" (.f v)
      let v ← nextBoolM
      let order := oset order "scaleAutoReset" (.b v)
      let v ← nextIntM
      let order := oset order "scaleInitPosition" (.i v)
      let v ← nextIntM
      let order := oset order "scaleInitFillQty" (.i v)
      let v ← nextBoolM
      pure (oset order "scaleRandomPercent" (.b v))
    else pure order
  -- hedge fields
  let hedge ← readHedgeFields
  let order := oset order "hedgeType" (.s hedge.1)
  let order :=
    match hedge.2 with
    | some hp => oset order "hedgeParam" (.s hp)
    | none => order
  let v ← nextBoolM
  let order := oset order "optOutSmartRouting" (.b v)
  let v ← nextM
  let order := oset order "clearingAccount" (.s v)
  let v ← nextM
  let order := oset order "clearingIntent" (.s v)
  let v ← nextBoolM
  let order := oset order "notHeld" (.b v)
  -- delta neutral contract
  let dncPresent ← nextBoolM
  if dncPresent then do
    let conId ← nextIntM
    let delta ← nextFloatM
    let price ← nextFloatM
    -- `DeltaNeutralContract(con_id, delta, price)`: a pydantic model takes
    -- no positional arguments, so this raises `TypeError`; the following
    -- `contract.deltaNeutralContract = ...` would raise as well
    let _ := (conId, delta, price)
    throw ()
  else pure ()
  -- algo strategy
  let algoStrategy ← nextM
  let order := oset order "algoStrategy" (.s algoStrategy)
  let order ←
    if algoStrategy ≠ "" then do
      let numAlgoParams ← nextIntM
      if 0 < numAlgoParams then do
        let pairs ← readTagValuePairsM numAlgoParams.toNat
        pure (oset order "algoParams" (.tags pairs))
      else pure order
    else pure order
  let v ← nextBoolM
  let order := oset order "solicited" (.b v)
  let v ← nextBoolM
  let order := oset order "whatIf" (.b v)
  let v ← nextM
  let oState := oset oState "status" (.s v)
  let v ← nextM
  let oState := oset oState "initMarginBefore" (.s v)
  let v ← nextM
  let oState := oset oState "maintMarginBefore" (.s v)
  let v ← nextM
  let oState := oset oState "equityWithLoanBefore" (.s v)
  let v ← nextM
  let oState := oset oState "initMarginChange" (.s v)
  let v ← nextM
  let oState := oset oState "maintMarginChange" (.s v)
  let v ← nextM
  let oState := oset oState "equityWithLoanChange" (.s v)
  let v ← nextM
  let oState := oset oState "initMarginAfter" (.s v)
  let v ← nextM
  let oState := oset oState "maintMarginAfter" (.s v)
  let v ← nextM
  let oState := oset oState "equityWithLoanAfter" (.s v)
  let v ← nextFloatM
  let oState := oset oState "commission" (.f v)
  let v ← nextFloatM
  let oState := oset oState "minCommission" (.f v)
  let v ← nextFloatM
  let oState := oset oState "maxCommission" (.f v)
  let v ← nextM
  let oState := oset oState "commissionCurrency" (.s v)
  let v ← nextM
  let oState := oset oState "warningText" (.s v)
  let v ← nextBoolM
  let order := oset order "randomizeSize" (.b v)
  let v ← nextBoolM
  let order := oset order "randomizePrice" (.b v)
  -- PEG BENCH fields, gated on the order type read earlier in this record
  let order ←
    if orderType = "PEG BENCH" || orderType = "PEGBENCH" then do
      let v ← nextIntM
      let order := oset order "referenceContractId" (.i v)
      let v ← nextBoolM
      let order := oset order "isPeggedChangeAmountDecrease" (.b v)
      let v ← nextFloatM
      let order := oset order "peggedChangeAmount" (.f v)
      let v ← nextFloatM
      let order := oset order "referenceChangeAmount" (.f v)
      let v ← nextM
      pure (oset order "referenceExchangeId" (.s v))
    else pure order
  -- conditions
  let numConditions ← nextIntM
  let order ←
    if 0 < numConditions then do
      let conds ← readCondTypesM numConditions.toNat
      let order := oset order "conditions" (.conds conds)
      let v ← nextBoolM
      let order := oset order "conditionsIgnoreRth" (.b v)
      let v ← nextBoolM
      pure (oset order "conditionsCancelOrder" (.b v))
    else pure order
  -- additional fields
  let v ← nextM
  let order := oset order "adjustedOrderType" (.s v)
  let v ← nextFloatM
  let order := oset order "triggerPrice" (.f v)
  let v ← nextFloatM
  let order := oset order "trailStopPrice" (.f v)
  let v ← nextFloatM
  let order := oset order "lmtPriceOffset" (.f v)
  let v ← nextFloatM
  let order := oset order "adjustedStopPrice" (.f v)
  let v ← nextFloatM
  let order := oset order "adjustedStopLimitPrice" (.f v)
  let v ← nextFloatM
  let order := oset order "adjustedTrailingAmount" (.f v)
  let v ← nextIntM
  let order := oset order "adjustableTrailingUnit" (.i v)
  let v ← nextM
  let order := oset order "softDollarTier.name" (.s v)
  let v ← nextM
  let order := oset order "softDollarTier.val" (.s v)
  let v ← nextM
  let order := oset order "softDollarTier.displayName" (.s v)
  let v ← nextFloatM
  let order := oset order "cashQty" (.f v)
  let v ← nextBoolM
  let order := oset order "dontUseAutoPriceForHedge" (.b v)
  let v ← nextBoolM
  let order := oset order "isOmsContainer" (.b v)
  let v ← nextBoolM
  let order := oset order "discretionaryUpToLimitPrice" (.b v)
  let v ← nextBoolM
  let order := oset order "usePriceMgmtAlgo" (.b v)
  -- server version specific fields
  let order ← readVersionGatedTail serverVersion order
  pure (order, contract, oState)

/-- `CompletedOrderMessage.from_fields` (orders.py lines 447-655).  Its
first statement after the skip, `contract.conId = it.next_int()`, raises
`ValueError` on the pydantic `Contract` model after consuming one token
beyond the skipped message id; the remainder is unreachable but
transliterated. -/
def completedOrderFromFields (serverVersion : Int) :
    DecodeM (ContractRec × AttrMap × AttrMap) := do
  skipM 1
  let contract := ContractRec.init
  let order : AttrMap := []
  let oState : AttrMap := []
  -- parse contract
  let v ← nextIntM
  let contract ← liftE (contractSetAttr contract "conId" (.i v))    -- raises
  let v ← nextM
  let contract ← liftE (contractSetAttr contract "symbol" (.s v))
  let v ← nextM
  let contract ← liftE (contractSetAttr contract "secType" (.s v))
  let v ← nextM
  let contract ← liftE (contractSetAttr contract "lastTradeDateOrContractMonth" (.s v))
  let v ← nextFloatM
  let contract ← liftE (contractSetAttr contract "strike" (.f v))
  let v ← nextM
  let contract ← liftE (contractSetAttr contract "right" (.s v))
  let v ← nextM
  let contract ← liftE (contractSetAttr contract "multiplier" (.s v))
  let v ← nextM
  let contract ← liftE (contractSetAttr contract "exchange" (.s v))
  let v ← nextM
  let contract ← liftE (contractSetAttr contract "currency" (.s v))
  let v ← nextM
  let contract ← liftE (contractSetAttr contract "localSymbol" (.s v))
  let v ← nextM
  let contract ← liftE (contractSetAttr contract "tradingClass" (.s v))
  -- parse order
  let v ← nextM
  let order := oset order "action" (.s v)
  let v ← nextFloatM
  let order := oset order "totalQuantity" (.f v)
  let orderType ← nextM
  let order := oset order "orderType" (.s orderType)
  let v ← nextFloatM
  let order := oset order "lmtPrice" (.f v)
  let v ← nextFloatM
  let order := oset order "auxPrice" (.f v)
  let v ← nextM
  let order := oset order "tif" (.s v)
  let v ← nextM
  let order := oset order "ocaGroup" (.s v)
  let v ← nextM
  let order := oset order "account" (.s v)
  let v ← nextM
  let order := oset order "openClose" (.s v)
  let v ← nextIntM
  let order := oset order "origin" (.i v)
  let v ← nextM
  let order := oset order "orderRef" (.s v)
  let v ← nextIntM
  let order := oset order "permId" (.i v)
  let v ← nextBoolM
  let order := oset order "outsideRth" (.b v)
  let v ← nextBoolM
  let order := oset order "hidden" (.b v)
  let v ← nextFloatM
  let order := oset order "discretionaryAmt" (.f v)
  let v ← nextM
  let order := oset order "goodAfterTime" (.s v)
  let v ← nextM
  let order := oset order "faGroup" (.s v)
  let v ← nextM
  let order := oset order "faMethod" (.s v)
  let v ← nextM
  let order := oset order "faPercentage" (.s v)
  let order ←
    if serverVersion < 177 then do
      let v ← nextM
      pure (oset order "faProfile" (.s v))
    else pure order
  let v ← nextM
  let order := oset order "modelCode" (.s v)
  let v ← nextM
  let order := oset order "goodTillDate" (.s v)
  let v ← nextM
  let order := oset order "rule80A" (.s v)
  let v ← nextFloatM
  let order := oset order "percentOffset" (.f v)
  let v ← nextM
  let order := oset order "settlingFirm" (.s v)
  let v ← nextIntM
  let order := oset order "shortSaleSlot" (.i v)
  let v ← nextM
  let order := oset order "designatedLocation" (.s v)
  let v ← nextIntM
  let order := oset order "exemptCode" (.i v)
  let v ← nextFloatM
  let order := oset order "startingPrice" (.f v)
  let v ← nextFloatM
  let order := oset order "stockRefPrice" (.f v)
  let v ← nextFloatM
  let order := oset order "delta" (.f v)
  let v ← nextFloatM
  let order := oset order "stockRangeLower" (.f v)
  let v ← nextFloatM
  let order := oset order "stockRangeUpper" (.f v)
  let v ← nextIntM
  let order := oset order "displaySize" (.i v)
  let v ← nextBoolM
  let order := oset order "sweepToFill" (.b v)
  let v ← nextBoolM
  let order := oset order "allOrNone" (.b v)
  let v ← nextIntM
  let order := oset order "minQty" (.i v)
  let v ← nextIntM
  let order := oset order "ocaType" (.i v)
  let v ← nextIntM
  let order := oset order "triggerMethod" (.i v)
  let v ← nextFloatM
  let order := oset order "volatility" (.f v)
  let v ← nextIntM
  let order := oset order "volatilityType" (.i v)
  let deltaNeutralOrderType ← nextM
  let order := oset order "deltaNeutralOrderType" (.s deltaNeutralOrderType)
  let v ← nextFloatM
  let order := oset order "deltaNeutralAuxPrice" (.f v)
  -- parse delta neutral fields
  let order ←
    if deltaNeutralOrderType ≠ "" then do
      let v ← nextIntM
      let order := oset order "deltaNeutralConId" (.i v)
      let v ← nextBoolM
      let order := oset order "deltaNeutralShortSale" (.b v)
      let v ← nextIntM
      let order := oset order "deltaNeutralShortSaleSlot" (.i v)
      let v ← nextM
      pure (oset order "deltaNeutralDesignatedLocation" (.s v))
    else pure order
  let v ← nextBoolM
  let order := oset order "continuousUpdate" (.b v)
  let v ← nextIntM
  let order := oset order "referencePriceType" (.i v)
  let v ← nextFloatM
  let order := oset order "trailStopPrice" (.f v)
  let v ← nextFloatM
  let order := oset order "trailingPercent" (.f v)
  let v ← nextM
  let contract ← liftE (contractSetAttr contract "comboLegsDescrip" (.s v))
  -- parse combo legs (simplified in the source)
  let numLegs ← nextIntM
  let contract ← liftE (contractSetAttr contract "comboLegs" (.tags []))
  let _legs ← readComboLegsM numLegs.toNat
  -- parse order combo legs
  let numOrderLegs ← nextIntM
  let prices ← readOrderComboLegPricesM numOrderLegs.toNat
  let order := oset order "orderComboLegs" (.prices prices)
  -- parse smart combo routing params
  let numParams ← nextIntM
  let order ←
    if 0 < numParams then do
      let pairs ← readTagValuePairsM numParams.toNat
      pure (oset order "smartComboRoutingParams" (.tags pairs))
    else pure order
  -- parse scale order fields
  let v ← nextIntM
  let order := oset order "scaleInitLevelSize" (.i v)
  let v ← nextIntM
  let order := oset order "scaleSubsLevelSize" (.i v)
  let increment ← nextM
  let scalePriceIncrement ←
    if increment ≠ "" then
      match pyFloat? increment with
      | some p => pure p
      | none => throw ()
    else pure UNSET_DOUBLE
  let order := oset order "scalePriceIncrement" (.f scalePriceIncrement)
  let order ←
    if PyFloat.lt (.finite 0) scalePriceIncrement
        && PyFloat.lt scalePriceIncrement UNSET_DOUBLE then do
      let v ← nextFloatM
      let order := oset order "scalePriceAdjustValue" (.f v)
      let v ← nextIntM
      let order := oset order "scalePriceAdjustInterval" (.i v)
      let v ← nextFloatM
      let order := oset order "scaleProfitOffset" (.f v)
      let v ← nextBoolM
      let order := oset order "scaleAutoReset" (.b v)
      let v ← nextIntM
      let order := oset order "scaleInitPosition" (.i v)
      let v ← nextIntM
      let order := oset order "scaleInitFillQty" (.i v)
      let v ← nextBoolM
      pure (oset order "scaleRandomPercent" (.b v))
    else pure order
  -- parse hedge fields
  let hedge ← readHedgeFields
  let order := oset order "hedgeType" (.s hedge.1)
  let order :=
    match hedge.2 with
    | some hp => oset order "hedgeParam" (.s hp)
    | none => order
  let v ← nextM
  let order := oset order "clearingAccount" (.s v)
  let v ← nextM
  let order := oset order "clearingIntent" (.s v)
  let v ← nextBoolM
  let order := oset order "notHeld" (.b v)
  -- parse delta neutral contract
  let dncPresent ← nextBoolM
  if dncPresent then do
    let conId ← nextIntM
    let delta ← nextFloatM
    let price ← nextFloatM
    -- `DeltaNeutralContract(con_id, delta, price)` raises (positional args)
    let _ := (conId, delta, price)
    throw ()
  else pure ()
  -- parse algo strategy
  let algoStrategy ← nextM
  let order := oset order "algoStrategy" (.s algoStrategy)
  let order ←
    if algoStrategy ≠ "" then do
      let numAlgoParams ← nextIntM
      if 0 < numAlgoParams then do
        let pairs ← readTagValuePairsM numAlgoParams.toNat
        pure (oset order "algoParams" (.tags pairs))
      else pure order
    else pure order
  let v ← nextBoolM
  let order := oset order "solicited" (.b v)
  let v ← nextM
  let oState := oset oState "status" (.s v)
  let v ← nextBoolM
  let order := oset order "randomizeSize" (.b v)
  let v ← nextBoolM
  let order := oset order "randomizePrice" (.b v)
  -- PEG BENCH fields, gated on the order type read earlier in this record
  let order ←
    if orderType = "PEG BENCH" || orderType = "PEGBENCH" then do
      let v ← nextIntM
      let order := oset order "referenceContractId" (.i v)
      let v ← nextBoolM
      let order := oset order "isPeggedChangeAmountDecrease" (.b v)
      let v ← nextFloatM
      let order := oset order "peggedChangeAmount" (.f v)
      let v ← nextFloatM
      let order := oset order "referenceChangeAmount" (.f v)
      let v ← nextM
      pure (oset order "referenceExchangeId" (.s v))
    else pure order
  -- parse conditions (simplified in the source)
  let numConditions ← nextIntM
  let order ←
    if 0 < numConditions then do
      let conds ← readCondTypesM numConditions.toNat
      let order := oset order "conditions" (.conds conds)
      let v ← nextBoolM
      let order := oset order "conditionsIgnoreRth" (.b v)
      let v ← nextBoolM
      pure (oset order "conditionsCancelOrder" (.b v))
    else pure order
  -- additional fields
  let v ← nextFloatM
  let order := oset order "trailStopPrice" (.f v)
  let v ← nextFloatM
  let order := oset order "lmtPriceOffset" (.f v)
  let v ← nextFloatM
  let order := oset order "cashQty" (.f v)
  let v ← nextBoolM
  let order := oset order "dontUseAutoPriceForHedge" (.b v)
  let v ← nextBoolM
  let order := oset order "isOmsContainer" (.b v)
  let v ← nextM
  let order := oset order "autoCancelDate" (.s v)
  let v ← nextFloatM
  let order := oset order "filledQuantity" (.f v)
  let v ← nextIntM
  let order := oset order "refFuturesConId" (.i v)
  let v ← nextBoolM
  let order := oset order "autoCancelParent" (.b v)
  let v ← nextM
  let order := oset order "shareholder" (.s v)
  let v ← nextBoolM
  let order := oset order "imbalanceOnly" (.b v)
  let v ← nextBoolM
  let order := oset order "routeMarketableToBbo" (.b v)
  let v ← nextIntM
  let order := oset order "parentPermId" (.i v)
  let v ← nextM
  let oState := oset oState "completedTime" (.s v)
  let v ← nextM
  let oState := oset oState "completedStatus" (.s v)
  let order ←
    if serverVersion ≥ 170 then do
      let v ← nextIntM
      let order := oset order "minTradeQty" (.i v)
      let v ← nextIntM
      let order := oset order "minCompeteSize" (.i v)
      let v ← nextFloatM
      let order := oset order "competeAgainstBestOffset" (.f v)
      let v ← nextFloatM
      let order := oset order "midOffsetAtWhole" (.f v)
      let v ← nextFloatM
      pure (oset order "midOffsetAtHalf" (.f v))
    else pure order
  pure (contract, order, oState)

/-! ## Concrete fixtures used by witnesses and counterexamples -/

/-- A message class for tag 1 whose decode always raises. -/
def badDecodeCls : MessageClass Nat := ⟨"BadMessage", some 1, fun _ _ => .error ()⟩

/-- A message class for tag 2 that decodes to the message `5`. -/
def okDecodeCls : MessageClass Nat := ⟨"GoodMessage", some 2, fun _ _ => .ok (some 5)⟩

/-- A handler that mutates the wrapper state and then raises. -/
def raisingHandler : HandlerFn Nat Nat := fun w _ => (some (), w + 1)

/-- A registry with the two fixture classes and the raising handler. -/
def fixtureRegistry : MessageRegistry Nat Nat :=
  ⟨[(1, badDecodeCls), (2, okDecodeCls)], [("GoodMessage", raisingHandler)]⟩

/-- A fresh dispatcher over the fixture registry. -/
def fixtureDispatcher : Dispatcher Nat Nat := mkDispatcher ⟨0, []⟩ fixtureRegistry 0

/-- A registry holding only the price/size tick class at tag 1. -/
def tickRegistry : MessageRegistry Nat IBMsg := ⟨[(1, priceSizeTickClass)], []⟩

/-- A fresh dispatcher over `tickRegistry`. -/
def tickDispatcher : Dispatcher Nat IBMsg := mkDispatcher ⟨0, []⟩ tickRegistry 0

/-- A well-formed head of an open-order (tag 5) wire record. -/
def openOrderFixture : List String :=
  ["5", "1001", "756733", "SPY", "STK", "", "0", "", "100", "SMART", "USD",
   "SPY", "SPY", "BUY", "100", "LMT", "430.5", "0"]

/-- A well-formed head of a completed-order (tag 101) wire record. -/
def completedOrderFixture : List String :=
  ["101", "756733", "SPY", "STK", "", "0", "", "100", "SMART", "USD",
   "SPY", "SPY", "BUY", "100", "LMT", "430.5", "0"]

/-- A well-formed head of a contract-details token stream (the eleven
contract fields, then the market name and onward). -/
def contractDetailsFixture : List String :=
  ["756733", "SPY", "STK", "", "0", "", "100", "SMART", "USD", "SPY", "SPY",
   "SPY-STOCK", "0.01", "LMT,MKT", "SMART,NYSE", "1", "0", "SPDR", "",
   "Funds", "Equity Fund", "Growth", "US/Eastern", "0700-1830", "0930-1600",
   "", "0", "0", "", "", "26", "", "", "COMMON", "0.01", "0.01", "100"]

/-- First fixture class for the duplicate-registration counterexample. -/
def clsA : MessageClass Nat := ⟨"A", none, fun _ _ => .ok none⟩

/-- Second fixture class for the duplicate-registration counterexample. -/
def clsB : MessageClass Nat := ⟨"B", none, fun _ _ => .ok none⟩

/-- First fixture handler (adds 1) for the counterexample. -/
def handlerA : HandlerFn Nat Nat := fun w _ => (none, w + 1)

/-- Second fixture handler (adds 2) for the counterexample. -/
def handlerB : HandlerFn Nat Nat := fun w _ => (none, w + 2)

/-! # Theorems -/

/-! ### Cursor lemmas -/

theorem next_of_lt (c : Cursor) (d : String) (h : c.index < c.length) :
    c.next d = (c.tok, { c with index := c.index + 1 }) := by
  simp [Cursor.next, Cursor.tok, h]

theorem next_of_ge (c : Cursor) (d : String) (h : ¬ c.index < c.length) :
    c.next d = (d, c) := by
  simp [Cursor.next, h]

theorem nextInt_of_lt (c : Cursor) (d : Int) (h : c.index < c.length) :
    (c.nextInt d).2 = { c with index := c.index + 1 } := by
  simp only [Cursor.nextInt, next_of_lt c "" h]

theorem nextInt_of_ge (c : Cursor) (d : Int) (h : ¬ c.index < c.length) :
    c.nextInt d = (d, c) := by
  simp [Cursor.nextInt, next_of_ge c "" h]

theorem nextFloat_of_lt (c : Cursor) (d : PyFloat) (h : c.index < c.length) :
    (c.nextFloat d).2 = { c with index := c.index + 1 } := by
  simp only [Cursor.nextFloat, next_of_lt c "" h]

theorem nextFloat_of_ge (c : Cursor) (d : PyFloat) (h : ¬ c.index < c.length) :
    c.nextFloat d = (d, c) := by
  simp [Cursor.nextFloat, next_of_ge c "" h]

theorem nextBool_of_lt (c : Cursor) (d : Bool) (h : c.index < c.length) :
    (c.nextBool d).2 = { c with index := c.index + 1 } := by
  simp only [Cursor.nextBool, next_of_lt c "" h]

theorem nextBool_of_ge (c : Cursor) (d : Bool) (h : ¬ c.index < c.length) :
    c.nextBool d = (d, c) := by
  simp [Cursor.nextBool, next_of_ge c "" h]

theorem nextDatetime_of_lt (c : Cursor) (d : Option Int) (h : c.index < c.length) :
    (c.nextDatetime d).2 = { c with index := c.index + 1 } := by
  simp only [Cursor.nextDatetime, next_of_lt c "" h]

theorem nextDatetime_of_ge (c : Cursor) (d : Option Int) (h : ¬ c.index < c.length) :
    c.nextDatetime d = (d, c) := by
  simp [Cursor.nextDatetime, next_of_ge c "" h]

/-- With at least `n` tokens remaining, reading via `next` (in any typed
variant) `n` times advances the position by exactly `n`; stated here for the
single step used everywhere below. -/
theorem next_index (c : Cursor) (d : String) :
    (c.next d).2.index = if c.index < c.length then c.index + 1 else c.index := by
  by_cases h : c.index < c.length <;> simp [Cursor.next, h]

/-- C3: the typed accessors `next_int`, `next_float` and `next_bool` never
raise (they are total functions here); on an empty or unparseable current
token they return the supplied default; whenever tokens remain they consume
exactly one token regardless of parse success; and `next_bool` on a
non-empty token is `true` exactly for `"1"` or a case-insensitive `"true"`.
(`field_parser.py` lines 50-75.) -/
theorem C3_typed_cursor_accessors (c : Cursor) (di : Int) (df : PyFloat) (db : Bool) :
    (c.index < c.length →
      ((c.nextInt di).2.index = c.index + 1 ∧
       (c.nextFloat df).2.index = c.index + 1 ∧
       (c.nextBool db).2.index = c.index + 1) ∧
      ((c.tok = "" ∨ pyInt? c.tok = none) → (c.nextInt di).1 = di) ∧
      ((c.tok = "" ∨ pyFloat? c.tok = none) → (c.nextFloat df).1 = df) ∧
      (c.tok = "" → (c.nextBool db).1 = db) ∧
      (c.tok ≠ "" →
        ((c.nextBool db).1 = true ↔ (c.tok = "1" ∨ pyLower c.tok = "true")))) ∧
    (¬ c.index < c.length →
      (c.nextInt di = (di, c) ∧ c.nextFloat df = (df, c) ∧ c.nextBool db = (db, c))) := by
  constructor
  · intro h
    refine ⟨⟨?_, ?_, ?_⟩, ?_, ?_, ?_, ?_⟩
    · rw [nextInt_of_lt c di h]
    · rw [nextFloat_of_lt c df h]
    · rw [nextBool_of_lt c db h]
    · rintro (ht | ht) <;>
        [skip; by_cases h0 : c.tok = ""] <;>
        simp_all [Cursor.nextInt, next_of_lt c "" h]
    · rintro (ht | ht) <;>
        [skip; by_cases h0 : c.tok = ""] <;>
        simp_all [Cursor.nextFloat, next_of_lt c "" h]
    · intro ht
      simp [Cursor.nextBool, next_of_lt c "" h, ht]
    · intro ht
      simp [Cursor.nextBool, next_of_lt c "" h, ht]
  · intro h
    exact ⟨nextInt_of_ge c di h, nextFloat_of_ge c df h, nextBool_of_ge c db h⟩

/-- Witness for C3 at a concrete cursor over `["abc"]`. -/
theorem C3_typed_cursor_accessors_witness :
    ((FieldIterator ["abc"] 0).nextInt 7).1 = 7 ∧
    ((FieldIterator ["abc"] 0).nextFloat PyFloat.nan).1 = PyFloat.nan ∧
    ((FieldIterator ["abc"] 0).nextBool true).2.index = 1 := by
  have H := C3_typed_cursor_accessors (FieldIterator ["abc"] 0) 7 PyFloat.nan true
  exact ⟨(H.1 (by decide)).2.1 (Or.inr (by decide)),
         (H.1 (by decide)).2.2.1 (Or.inr (by decide)),
         (H.1 (by decide)).1.2.2⟩

/-- C4: a `FieldIterator` constructed with `start_index <= length` satisfies
the invariant `position <= length`, every state-changing operation preserves
it (`peek`, `has_more` and `remaining` do not return a cursor at all, so
they preserve it vacuously), and every read issued at `position = length`
returns the caller-supplied default (`None` for `peek`).
(`field_parser.py` lines 26-110.) -/
theorem C4_cursor_invariant (c : Cursor) (d : String) (di : Int) (df : PyFloat)
    (db : Bool) (dd : Option Int) (n off : Nat) :
    (∀ (fs : List String) (s : Nat), s ≤ fs.length → (FieldIterator fs s).WF) ∧
    (c.WF →
      ((c.next d).2.WF ∧ (c.nextInt di).2.WF ∧ (c.nextFloat df).2.WF ∧
       (c.nextBool db).2.WF ∧ (c.nextDatetime dd).2.WF ∧ (c.skip n).WF ∧
       c.consumeRest.2.WF)) ∧
    (c.index = c.length →
      ((c.next d).1 = d ∧ (c.nextInt di).1 = di ∧ (c.nextFloat df).1 = df ∧
       (c.nextBool db).1 = db ∧ (c.nextDatetime dd).1 = dd ∧ c.peek off = none)) := by
  refine ⟨?_, ?_, ?_⟩
  · intro fs s hs
    simpa [FieldIterator, Cursor.WF] using hs
  · intro hwf
    by_cases h : c.index < c.length
    · rw [show (c.next d).2 = { c with index := c.index + 1 } by
            rw [next_of_lt c d h],
          nextInt_of_lt c di h, nextFloat_of_lt c df h, nextBool_of_lt c db h,
          nextDatetime_of_lt c dd h]
      refine ⟨h, h, h, h, h, ?_, ?_⟩
      · exact Nat.min_le_right _ _
      · exact Nat.le_refl _
    · rw [show (c.next d).2 = c by rw [next_of_ge c d h],
          nextInt_of_ge c di h, nextFloat_of_ge c df h, nextBool_of_ge c db h,
          nextDatetime_of_ge c dd h]
      exact ⟨hwf, hwf, hwf, hwf, hwf, Nat.min_le_right _ _, Nat.le_refl _⟩
  · intro he
    have h : ¬ c.index < c.length := by omega
    rw [next_of_ge c d h, nextInt_of_ge c di h, nextFloat_of_ge c df h,
        nextBool_of_ge c db h, nextDatetime_of_ge c dd h]
    refine ⟨rfl, rfl, rfl, rfl, rfl, ?_⟩
    simp [Cursor.peek]
    omega

/-- Witness for C4: a cursor built at the end of its token list. -/
theorem C4_cursor_invariant_witness :
    (FieldIterator ["a"] 1).WF ∧
    ((FieldIterator ["a"] 1).next "z").1 = "z" ∧
    (FieldIterator ["a"] 1).peek 0 = none := by
  have H := C4_cursor_invariant (FieldIterator ["a"] 1) "z" 0 PyFloat.zero false none 1 0
  exact ⟨H.1 ["a"] 1 (by decide), (H.2.2 (by decide)).1, (H.2.2 (by decide)).2.2.2.2.2⟩

theorem assocGet?_assocSet_self {K V : Type} [DecidableEq K]
    (l : List (K × V)) (k : K) (v : V) :
    assocGet? (assocSet l k v) k = some v := by
  induction l with
  | nil => simp [assocSet, assocGet?]
  | cons p rest ih =>
      by_cases h : p.1 = k <;> simp [assocSet, assocGet?, h, ih]

theorem assocGet?_assocSet_ne {K V : Type} [DecidableEq K]
    (l : List (K × V)) (k u : K) (v : V) (h : u ≠ k) :
    assocGet? (assocSet l k v) u = assocGet? l u := by
  induction l with
  | nil =>
      simp only [assocSet, assocGet?]
      rw [if_neg (fun he : k = u => h he.symm)]
  | cons p rest ih =>
      obtain ⟨k', v'⟩ := p
      simp only [assocSet]
      by_cases hpk : k' = k
      · rw [if_pos hpk]
        simp only [assocGet?]
        rw [if_neg (fun he : k = u => h he.symm),
            if_neg (fun he : k' = u => h (hpk.symm.trans he).symm)]
      · rw [if_neg hpk]
        simp only [assocGet?]
        by_cases hku : k' = u
        · rw [if_pos hku, if_pos hku]
        · rw [if_neg hku, if_neg hku, ih]

/-! ### Dispatcher lemmas -/

theorem pyInt?_empty : pyInt? "" = none := by decide

theorem countsGet_countsIncr_self (l : List (Int × Nat)) (k : Int) :
    countsGet (countsIncr l k) k = countsGet l k + 1 := by
  simp [countsGet, countsIncr, assocGet?_assocSet_self]

theorem countsGet_countsIncr_ne (l : List (Int × Nat)) (k u : Int) (h : u ≠ k) :
    countsGet (countsIncr l k) u = countsGet l u := by
  simp [countsGet, countsIncr, assocGet?_assocSet_ne _ _ _ _ h]

theorem sumCounts_countsIncr (l : List (Int × Nat)) (k : Int) :
    sumCounts (countsIncr l k) = sumCounts l + 1 := by
  induction l with
  | nil => simp [sumCounts, countsIncr, countsGet, assocSet, assocGet?]
  | cons p rest ih =>
      obtain ⟨k', v'⟩ := p
      by_cases h : k' = k
      · subst h
        simp [sumCounts, countsIncr, countsGet, assocSet, assocGet?]
        omega
      · have hg : countsGet ((k', v') :: rest) k = countsGet rest k := by
          simp [countsGet, assocGet?, h]
        simp only [countsIncr, assocSet, if_neg h] at *
        simp only [sumCounts, List.map, List.sum_cons] at *
        rw [hg]
        have := ih
        simp only [countsIncr] at this
        omega

/-- `handlerStep` touches only the failure counter and the wrapper state. -/
theorem handlerStep_preserves {W Msg : Type} (d : Dispatcher W Msg)
    (mc : MessageClass Msg) (m : Msg) :
    (handlerStep d mc m).1.stats.messagesProcessed = d.stats.messagesProcessed ∧
    (handlerStep d mc m).1.messageCounts = d.messageCounts ∧
    (handlerStep d mc m).1.stats.unknownMessages = d.stats.unknownMessages ∧
    (handlerStep d mc m).1.postProcessors = d.postProcessors := by
  unfold handlerStep
  rcases hh : getHandler d.registry mc.name with _ | h
  · simp only [hh]
    unfold callWrapperMethod
    rcases hm : assocGet? d.wrapper.methods (deriveMethodName mc.name) with _ | f
    · simp [hm]
    · rcases hf : f d.wrapper.state m with ⟨res, w'⟩
      simp [hm, hf]
  · simp only [hh]
    rcases hf : h d.wrapper.state m with ⟨res, w'⟩
    simp only [hf]
    cases res <;> simp [failIncr]

/-- `dispatchAfterStats` never touches `messages_processed` or the per-tag
counts. -/
theorem dispatchAfterStats_preserves {W Msg : Type} (d : Dispatcher W Msg)
    (t : Int) (fs : List String) :
    (dispatchAfterStats d t fs).disp.stats.messagesProcessed
        = d.stats.messagesProcessed ∧
    (dispatchAfterStats d t fs).disp.messageCounts = d.messageCounts := by
  unfold dispatchAfterStats
  split
  · exact ⟨rfl, rfl⟩
  · split
    · exact ⟨rfl, rfl⟩
    · split
      · exact ⟨rfl, rfl⟩
      · exact ⟨rfl, rfl⟩
      · split
        · exact ⟨(handlerStep_preserves _ _ _).1, (handlerStep_preserves _ _ _).2.1⟩
        · exact ⟨(handlerStep_preserves _ _ _).1, (handlerStep_preserves _ _ _).2.1⟩

/-- When the first token parses as an integer, `dispatch` is the statistics
update followed by `dispatchAfterStats`. -/
theorem dispatch_intTag {W Msg : Type} (d : Dispatcher W Msg) (f0 : String)
    (rest : List String) (t : Int) (hpy : pyInt? f0 = some t) :
    dispatch d (f0 :: rest) = dispatchAfterStats (statsIncr d t) t (f0 :: rest) := by
  have hne : f0 ≠ "" := by
    intro h
    rw [h, pyInt?_empty] at hpy
    exact Option.noConfusion hpy
  simp only [dispatch, if_neg hne, hpy]

/-- An association-list lookup of a key bound nowhere returns `none`. -/
theorem assocGet?_eq_none {K V : Type} [DecidableEq K] (l : List (K × V)) (t : K)
    (h : ∀ p ∈ l, p.1 ≠ t) : assocGet? l t = none := by
  induction l with
  | nil => rfl
  | cons p rest ih =>
      obtain ⟨k, v⟩ := p
      have hk : k ≠ t := h (k, v) (List.mem_cons_self _ _)
      simp only [assocGet?, if_neg hk]
      exact ih (fun q hq => h q (List.mem_cons_of_mem _ hq))

/-- A lookup of a tag bound nowhere in the registry returns `none` (it does
not raise: the model is total by construction). -/
theorem getMessageClass_of_not_mem {W Msg : Type} (r : MessageRegistry W Msg)
    (t : Int) (h : ∀ p ∈ r.messageClasses, p.1 ≠ t) :
    getMessageClass r t = none :=
  assocGet?_eq_none r.messageClasses t h

/-- With no processors installed, no exception ever escapes `dispatch`. -/
theorem dispatch_no_raise {W Msg : Type} (d : Dispatcher W Msg)
    (fields : List String)
    (hpre : d.preProcessors = []) (hpost : d.postProcessors = []) :
    (dispatch d fields).raised = false := by
  cases fields with
  | nil => rfl
  | cons f0 rest =>
      by_cases h0 : f0 = ""
      · simp [dispatch, h0]
      · rcases hpy : pyInt? f0 with _ | t
        · simp [dispatch, if_neg h0, hpy]
        · rw [dispatch_intTag d f0 rest t hpy]
          unfold dispatchAfterStats
          have hpre' : (statsIncr d t).preProcessors = [] := hpre
          simp only [hpre', runPreProcessors]
          rcases hcls : getMessageClass (statsIncr d t).registry t with _ | mc
          · simp [hcls]
          · simp only [hcls]
            rcases hdec : mc.fromFields (f0 :: rest) (statsIncr d t).serverVersion
              with e | om
            · simp [hdec]
            · rcases om with _ | m
              · simp [hdec]
              · simp only [hdec]
                have hp : (handlerStep (statsIncr d t) mc m).1.postProcessors = [] := by
                  rw [(handlerStep_preserves (statsIncr d t) mc m).2.2.2]
                  exact hpost
                simp [hp, runPostProcessors]

/-- Two dispatchers that agree on everything except statistics counters and
the wrapper state produce the same callback invocations from `handlerStep`. -/
theorem handlerStep_calls_eq {W Msg : Type} (a b : Dispatcher W Msg)
    (mc : MessageClass Msg) (m : Msg)
    (hreg : a.registry = b.registry)
    (hmeth : a.wrapper.methods = b.wrapper.methods) :
    (handlerStep a mc m).2 = (handlerStep b mc m).2 := by
  unfold handlerStep
  rw [hreg]
  rcases hh : getHandler b.registry mc.name with _ | h
  · simp only [hh]
    unfold callWrapperMethod
    rw [hmeth]
    rcases hm : assocGet? b.wrapper.methods (deriveMethodName mc.name) with _ | f
    · simp [hm]
    · rcases hfa : f a.wrapper.state m with ⟨r1, w1⟩
      rcases hfb : f b.wrapper.state m with ⟨r2, w2⟩
      simp [hm, hfa, hfb]
  · rcases hfa : h a.wrapper.state m with ⟨r1, w1⟩
    rcases hfb : h b.wrapper.state m with ⟨r2, w2⟩
    simp only [hh, hfa, hfb]

/-- The observable outcome of `dispatchAfterStats` (raised / result / calls)
does not depend on the statistics counters or the wrapper state. -/
theorem dispatchAfterStats_obs {W Msg : Type} (a b : Dispatcher W Msg)
    (t : Int) (fs : List String)
    (hreg : a.registry = b.registry) (hsv : a.serverVersion = b.serverVersion)
    (hpre2 : a.preProcessors = b.preProcessors)
    (hpost2 : a.postProcessors = b.postProcessors)
    (hmeth : a.wrapper.methods = b.wrapper.methods) :
    (dispatchAfterStats a t fs).raised = (dispatchAfterStats b t fs).raised ∧
    (dispatchAfterStats a t fs).result = (dispatchAfterStats b t fs).result ∧
    (dispatchAfterStats a t fs).calls = (dispatchAfterStats b t fs).calls := by
  unfold dispatchAfterStats
  rw [hpre2, hreg, hsv]
  rcases hp : runPreProcessors b.preProcessors fs with e | fs'
  · simp [hp]
  · simp only [hp]
    rcases hc : getMessageClass b.registry t with _ | mc
    · simp [hc]
    · simp only [hc]
      rcases hd : mc.fromFields fs' b.serverVersion with e | om
      · simp [hd]
      · rcases om with _ | m
        · simp [hd]
        · simp only [hd]
          have hpp : (handlerStep a mc m).1.postProcessors
              = (handlerStep b mc m).1.postProcessors := by
            rw [(handlerStep_preserves a mc m).2.2.2,
                (handlerStep_preserves b mc m).2.2.2, hpost2]
          have hcalls := handlerStep_calls_eq a b mc m hreg hmeth
          rw [hpp]
          rcases hq : runPostProcessors (handlerStep b mc m).1.postProcessors m
            with _ | u
          · simp [hq, hcalls]
          · simp [hq, hcalls]

/-- The observable outcome of a whole `dispatch` call (raised / result /
calls) does not depend on the statistics counters or the wrapper state. -/
theorem dispatch_obs {W Msg : Type} (a b : Dispatcher W Msg) (fields : List String)
    (hreg : a.registry = b.registry) (hsv : a.serverVersion = b.serverVersion)
    (hpre2 : a.preProcessors = b.preProcessors)
    (hpost2 : a.postProcessors = b.postProcessors)
    (hmeth : a.wrapper.methods = b.wrapper.methods) :
    (dispatch a fields).raised = (dispatch b fields).raised ∧
    (dispatch a fields).result = (dispatch b fields).result ∧
    (dispatch a fields).calls = (dispatch b fields).calls := by
  cases fields with
  | nil => exact ⟨rfl, rfl, rfl⟩
  | cons f0 rest =>
      by_cases h0 : f0 = ""
      · simp [dispatch, h0]
      · rcases hpy : pyInt? f0 with _ | t
        · simp [dispatch, if_neg h0, hpy]
        · rw [dispatch_intTag a f0 rest t hpy, dispatch_intTag b f0 rest t hpy]
          exact dispatchAfterStats_obs _ _ t (f0 :: rest) hreg hsv hpre2 hpost2 hmeth

/-- One `dispatch` preserves `messages_processed = sum of message_counts`. -/
theorem dispatch_sum_preserved {W Msg : Type} (d : Dispatcher W Msg)
    (fs : List String)
    (hinv : d.stats.messagesProcessed = sumCounts d.messageCounts) :
    (dispatch d fs).disp.stats.messagesProcessed
      = sumCounts (dispatch d fs).disp.messageCounts := by
  cases fs with
  | nil => exact hinv
  | cons f0 rest =>
      by_cases h0 : f0 = ""
      · simp only [dispatch, if_pos h0]
        exact hinv
      · rcases hpy : pyInt? f0 with _ | t
        · simp only [dispatch, if_neg h0, hpy]
          exact hinv
        · rw [dispatch_intTag d f0 rest t hpy]
          have hp := dispatchAfterStats_preserves (statsIncr d t) t (f0 :: rest)
          rw [hp.1, hp.2]
          show d.stats.messagesProcessed + 1 = sumCounts (countsIncr d.messageCounts t)
          rw [sumCounts_countsIncr, hinv]

/-- `dispatchAll` preserves `messages_processed = sum of message_counts`. -/
theorem dispatchAll_sum_preserved {W Msg : Type} (recs : List (List String)) :
    ∀ (d : Dispatcher W Msg),
      d.stats.messagesProcessed = sumCounts d.messageCounts →
      (dispatchAll d recs).stats.messagesProcessed
        = sumCounts (dispatchAll d recs).messageCounts := by
  induction recs with
  | nil => exact fun d h => h
  | cons fs rest ih =>
      intro d h
      exact ih _ (dispatch_sum_preserved d fs h)

/-- When a handler is registered, `handlerStep` invokes exactly it, and the
failure counter moves by one exactly when the handler raises. -/
theorem handlerStep_of_handler {W Msg : Type} (d : Dispatcher W Msg)
    (mc : MessageClass Msg) (m : Msg) (h : HandlerFn W Msg)
    (hh : getHandler d.registry mc.name = some h) :
    (handlerStep d mc m).2 = [.handler mc.name m] ∧
    ((h d.wrapper.state m).1 = some () →
       (handlerStep d mc m).1.stats.messagesFailed = d.stats.messagesFailed + 1) ∧
    ((h d.wrapper.state m).1 = none →
       (handlerStep d mc m).1.stats.messagesFailed = d.stats.messagesFailed) := by
  unfold handlerStep
  simp only [hh]
  rcases hr : h d.wrapper.state m with ⟨res, w2⟩
  cases res with
  | none => exact ⟨trivial, fun hc => Option.noConfusion hc, fun _ => rfl⟩
  | some u => exact ⟨trivial, fun _ => rfl, fun hc => Option.noConfusion hc⟩

/-- C2: with no pre/post-processors installed, `dispatch` never lets a
decoder or handler exception escape: its own exception flag is always
`false`; a decode exception yields `None` with `messages_failed` incremented
and no callback invoked; a handler exception is caught with
`messages_failed` incremented (the decoded message is still returned, as in
the source); and the observable behaviour of a dispatch (exception flag,
returned message, callbacks) is independent of the accumulated statistics
counters and wrapper state, so a later record on the same dispatcher is
decoded and routed exactly as on a fresh dispatcher.
(dispatcher.py lines 64-148.) -/
theorem C2_dispatch_failure_isolation {W Msg : Type} (d : Dispatcher W Msg)
    (fields : List String)
    (hpre : d.preProcessors = []) (hpost : d.postProcessors = []) :
    ((dispatch d fields).raised = false) ∧
    (∀ (f0 : String) (rest : List String) (t : Int) (mc : MessageClass Msg),
       fields = f0 :: rest → pyInt? f0 = some t →
       getMessageClass d.registry t = some mc →
       mc.fromFields fields d.serverVersion = .error () →
       ((dispatch d fields).result = none ∧
        (dispatch d fields).disp.stats.messagesFailed = d.stats.messagesFailed + 1 ∧
        (dispatch d fields).calls = [])) ∧
    (∀ (f0 : String) (rest : List String) (t : Int) (mc : MessageClass Msg)
        (m : Msg) (h : HandlerFn W Msg),
       fields = f0 :: rest → pyInt? f0 = some t →
       getMessageClass d.registry t = some mc →
       mc.fromFields fields d.serverVersion = .ok (some m) →
       getHandler d.registry mc.name = some h →
       (h d.wrapper.state m).1 = some () →
       ((dispatch d fields).raised = false ∧
        (dispatch d fields).disp.stats.messagesFailed = d.stats.messagesFailed + 1 ∧
        (dispatch d fields).result = some m ∧
        (dispatch d fields).calls = [.handler mc.name m])) ∧
    (∀ (s' : Stats) (mcnt : List (Int × Nat)) (w' : W),
       ((dispatch { d with stats := s', messageCounts := mcnt, wrapper := { d.wrapper with state := w' } } fields).raised = (dispatch d fields).raised ∧
        (dispatch { d with stats := s', messageCounts := mcnt, wrapper := { d.wrapper with state := w' } } fields).result = (dispatch d fields).result ∧
        (dispatch { d with stats := s', messageCounts := mcnt, wrapper := { d.wrapper with state := w' } } fields).calls = (dispatch d fields).calls)) := by
  refine ⟨dispatch_no_raise d fields hpre hpost, ?_, ?_, ?_⟩
  · rintro f0 rest t mc rfl hpy hcls hdec
    rw [dispatch_intTag d f0 rest t hpy]
    unfold dispatchAfterStats
    simp only [show (statsIncr d t).preProcessors = [] from hpre, runPreProcessors]
    simp only [show getMessageClass (statsIncr d t).registry t = some mc from hcls]
    simp only [show mc.fromFields (f0 :: rest) (statsIncr d t).serverVersion
        = .error () from hdec]
    exact ⟨trivial, rfl, trivial⟩
  · rintro f0 rest t mc m h rfl hpy hcls hh hhand hraise
    rw [dispatch_intTag d f0 rest t hpy]
    unfold dispatchAfterStats
    simp only [show (statsIncr d t).preProcessors = [] from hpre, runPreProcessors]
    simp only [show getMessageClass (statsIncr d t).registry t = some mc from hcls]
    simp only [show mc.fromFields (f0 :: rest) (statsIncr d t).serverVersion
        = .ok (some m) from hh]
    have hps := handlerStep_of_handler (statsIncr d t) mc m h hhand
    have hpp : (handlerStep (statsIncr d t) mc m).1.postProcessors = [] := by
      rw [(handlerStep_preserves _ _ _).2.2.2]
      exact hpost
    simp only [hpp, runPostProcessors]
    exact ⟨trivial, hps.2.1 hraise, trivial, hps.1⟩
  · intro s' mcnt w'
    exact dispatch_obs _ d fields rfl rfl rfl rfl rfl

/-- Witness for C2: a decoder that raises (tag 1) and a handler that raises
(tag 2), on a fresh dispatcher. -/
theorem C2_dispatch_failure_isolation_witness :
    (dispatch fixtureDispatcher ["1"]).result = none ∧
    (dispatch fixtureDispatcher ["1"]).disp.stats.messagesFailed = 1 ∧
    (dispatch fixtureDispatcher ["1"]).calls = [] ∧
    (dispatch fixtureDispatcher ["2"]).disp.stats.messagesFailed = 1 ∧
    (dispatch fixtureDispatcher ["2"]).result = some 5 := by
  have H1 := (C2_dispatch_failure_isolation fixtureDispatcher ["1"] rfl rfl).2.1
    "1" [] 1 badDecodeCls rfl (by decide) rfl rfl
  have H2 := (C2_dispatch_failure_isolation fixtureDispatcher ["2"] rfl rfl).2.2.1
    "2" [] 2 okDecodeCls 5 raisingHandler rfl (by decide) rfl rfl rfl rfl
  exact ⟨H1.1, H1.2.1, H1.2.2, H2.2.1, H2.2.2.1⟩

/-- C9: a record whose integer tag has no registered message class
increments only the unknown-message counter, invokes no handler and no
wrapper method, and returns `None`; the registry lookup itself returns
`None` for an unregistered tag rather than raising.
(dispatcher.py lines 98-106, base.py lines 164-174.) -/
theorem C9_unknown_tag {W Msg : Type} (d : Dispatcher W Msg)
    (f0 : String) (rest : List String) (t : Int)
    (hpy : pyInt? f0 = some t) (hpre : d.preProcessors = [])
    (hcls : getMessageClass d.registry t = none) :
    (dispatch d (f0 :: rest)).result = none ∧
    (dispatch d (f0 :: rest)).raised = false ∧
    (dispatch d (f0 :: rest)).calls = [] ∧
    (dispatch d (f0 :: rest)).disp.stats.unknownMessages
        = d.stats.unknownMessages + 1 ∧
    (dispatch d (f0 :: rest)).disp.stats.messagesFailed = d.stats.messagesFailed ∧
    (∀ (r : MessageRegistry W Msg), (∀ p ∈ r.messageClasses, p.1 ≠ t) →
       getMessageClass r t = none) := by
  rw [dispatch_intTag d f0 rest t hpy]
  unfold dispatchAfterStats
  simp only [show (statsIncr d t).preProcessors = [] from hpre, runPreProcessors]
  simp only [show getMessageClass (statsIncr d t).registry t = none from hcls]
  exact ⟨trivial, trivial, trivial, rfl, rfl, fun r hr => getMessageClass_of_not_mem r t hr⟩

/-- Witness for C9 at tag 9999 on the fixture dispatcher. -/
theorem C9_unknown_tag_witness :
    (dispatch fixtureDispatcher ["9999", "data1", "data2"]).result = none ∧
    (dispatch fixtureDispatcher ["9999", "data1", "data2"]).disp.stats.unknownMessages = 1 ∧
    (dispatch fixtureDispatcher ["9999", "data1", "data2"]).calls = [] := by
  have H := C9_unknown_tag fixtureDispatcher "9999" ["data1", "data2"] 9999
    (by decide) rfl rfl
  exact ⟨H.1, H.2.2.2.1, H.2.2.1⟩

/-- C10: every dispatched record whose first token parses as an integer
increments `messages_processed` and the per-tag count of its tag by exactly
one (leaving other tags' counts unchanged) — on the unknown-tag, failed-
decode and suppressed paths alike — so `messages_processed` always equals
the sum of the per-tag counts from a freshly constructed dispatcher; a
record rejected for an empty or non-integer first token is counted only in
`messages_failed` and touches no other counter.
(dispatcher.py lines 76-106.) -/
theorem C10_statistics_invariants {W Msg : Type} :
    (∀ (d : Dispatcher W Msg) (f0 : String) (rest : List String) (t : Int),
       pyInt? f0 = some t →
       ((dispatch d (f0 :: rest)).disp.stats.messagesProcessed
           = d.stats.messagesProcessed + 1 ∧
        countsGet (dispatch d (f0 :: rest)).disp.messageCounts t
           = countsGet d.messageCounts t + 1 ∧
        ∀ u : Int, u ≠ t →
          countsGet (dispatch d (f0 :: rest)).disp.messageCounts u
            = countsGet d.messageCounts u)) ∧
    (∀ (d : Dispatcher W Msg) (recs : List (List String)),
       d.stats.messagesProcessed = sumCounts d.messageCounts →
       (dispatchAll d recs).stats.messagesProcessed
         = sumCounts (dispatchAll d recs).messageCounts) ∧
    (∀ (w : Wrapper W Msg) (r : MessageRegistry W Msg) (sv : Int)
        (recs : List (List String)),
       (dispatchAll (mkDispatcher w r sv) recs).stats.messagesProcessed
         = sumCounts (dispatchAll (mkDispatcher w r sv) recs).messageCounts) ∧
    (∀ (d : Dispatcher W Msg) (fields : List String),
       (fields = [] ∨ ∃ f0 rest, fields = f0 :: rest ∧ (f0 = "" ∨ pyInt? f0 = none)) →
       ((dispatch d fields).disp.stats
           = { d.stats with messagesFailed := d.stats.messagesFailed + 1 } ∧
        (dispatch d fields).disp.messageCounts = d.messageCounts ∧
        (dispatch d fields).result = none)) := by
  refine ⟨?_, ?_, ?_, ?_⟩
  · intro d f0 rest t hpy
    rw [dispatch_intTag d f0 rest t hpy]
    have hp := dispatchAfterStats_preserves (statsIncr d t) t (f0 :: rest)
    rw [hp.1, hp.2]
    refine ⟨rfl, ?_, ?_⟩
    · exact countsGet_countsIncr_self d.messageCounts t
    · exact fun u hu => countsGet_countsIncr_ne d.messageCounts t u hu
  · exact fun d recs h => dispatchAll_sum_preserved recs d h
  · exact fun w r sv recs => dispatchAll_sum_preserved recs (mkDispatcher w r sv) rfl
  · intro d fields hrej
    rcases hrej with rfl | ⟨f0, rest, rfl, hbad⟩
    · exact ⟨rfl, rfl, rfl⟩
    · by_cases h0 : f0 = ""
      · simp only [dispatch, if_pos h0]
        exact ⟨rfl, rfl, trivial⟩
      · rcases hbad with hb | hb
        · exact absurd hb h0
        · simp only [dispatch, if_neg h0, hb]
          exact ⟨rfl, rfl, trivial⟩

/-- Witness for C10 on the fixture dispatcher. -/
theorem C10_statistics_invariants_witness :
    (dispatch fixtureDispatcher ["2", "x"]).disp.stats.messagesProcessed = 1 ∧
    countsGet (dispatch fixtureDispatcher ["2", "x"]).disp.messageCounts 2 = 1 ∧
    (dispatchAll fixtureDispatcher [["2"], ["9999"], []]).stats.messagesProcessed
      = sumCounts (dispatchAll fixtureDispatcher [["2"], ["9999"], []]).messageCounts ∧
    (dispatch fixtureDispatcher [""]).disp.messageCounts = [] := by
  have H := (@C10_statistics_invariants Nat Nat)
  refine ⟨?_, ?_, ?_, ?_⟩
  · exact (H.1 fixtureDispatcher "2" ["x"] 2 (by decide)).1
  · exact (H.1 fixtureDispatcher "2" ["x"] 2 (by decide)).2.1
  · exact H.2.2.1 ⟨0, []⟩ fixtureRegistry 0 [["2"], ["9999"], []]
  · exact (H.2.2.2 fixtureDispatcher [""] (Or.inr ⟨"", [], rfl, Or.inl rfl⟩)).2.1

/-- C1 counterexample: registering a second message class for tag 1 (and a
second handler for the same class) raises no error — the registration path
has no failure branch at all in the source — and the lookup afterwards
returns the second registration, so the first was silently overwritten. -/
theorem C1_registration_counterexample :
    (getMessageClass
        (registerMessage (registerMessage (emptyRegistry Nat Nat) 1 clsA) 1 clsB)
        1).map (fun c => c.name) = some "B" ∧
    (getMessageClass
        (registerMessage (registerMessage (emptyRegistry Nat Nat) 1 clsA) 1 clsB)
        1).map (fun c => c.name) ≠ some "A" ∧
    (getHandler
        (registerHandler (registerHandler (emptyRegistry Nat Nat) "C" handlerA)
          "C" handlerB)
        "C").map (fun h => (h 0 0).2) = some 2 := by
  refine ⟨rfl, ?_, rfl⟩
  intro hc
  exact absurd (Option.some.inj hc) (by decide)

/-- On any field list of more than four tokens whose fifth token (the price)
is empty, `PriceSizeTickMessage.from_fields` returns Python `None`. -/
theorem priceSizeTickFromFields_empty_price (fl : List String) (sv : Int)
    (h4 : 4 < fl.length) (hget : fl.getD 4 "" = "") :
    priceSizeTickFromFields fl sv = .ok none := by
  have hmin : min (0 + 2) fl.length = 2 := by omega
  have h2 : 2 < fl.length := by omega
  have h3 : 3 < fl.length := by omega
  simp only [priceSizeTickFromFields, FieldIterator, Cursor.skip, Cursor.nextInt,
             Cursor.next, hmin, h2, h3, h4, ite_true, hget, eq_self_iff_true]

/-- C5: a tag-1 (price/size tick) record whose price token is the empty
string produces no message: `from_fields` returns `None`, `dispatch` of that
record returns `None`, and no handler or wrapper method is invoked.
(market_data.py lines 26-46, dispatcher.py lines 108-113.) -/
theorem C5_empty_price_tick_suppressed (f0 f1 f2 f3 : String) (tail : List String) :
    (∀ sv : Int,
       priceSizeTickFromFields (f0 :: f1 :: f2 :: f3 :: "" :: tail) sv = .ok none) ∧
    (∀ (W : Type) (d : Dispatcher W IBMsg),
       d.preProcessors = [] →
       pyInt? f0 = some 1 →
       getMessageClass d.registry 1 = some priceSizeTickClass →
       ((dispatch d (f0 :: f1 :: f2 :: f3 :: "" :: tail)).result = none ∧
        (dispatch d (f0 :: f1 :: f2 :: f3 :: "" :: tail)).calls = [])) := by
  have hdecode : ∀ sv : Int,
      priceSizeTickFromFields (f0 :: f1 :: f2 :: f3 :: "" :: tail) sv = .ok none := by
    intro sv
    apply priceSizeTickFromFields_empty_price
    · simp only [List.length_cons]
      omega
    · rfl
  refine ⟨hdecode, ?_⟩
  intro W d hpre hpy hcls
  rw [dispatch_intTag d f0 _ 1 hpy]
  unfold dispatchAfterStats
  simp only [show (statsIncr d 1).preProcessors = [] from hpre, runPreProcessors]
  simp only [show getMessageClass (statsIncr d 1).registry 1
      = some priceSizeTickClass from hcls]
  simp only [priceSizeTickClass, hdecode]
  exact ⟨trivial, trivial⟩

/-- Witness for C5 on the fixture record of the repository's own test
(`['1','1','123','1','','1000']`). -/
theorem C5_empty_price_tick_suppressed_witness :
    priceSizeTickFromFields ["1", "1", "123", "1", "", "1000"] 0 = .ok none ∧
    (dispatch tickDispatcher ["1", "1", "123", "1", "", "1000"]).result = none ∧
    (dispatch tickDispatcher ["1", "1", "123", "1", "", "1000"]).calls = [] := by
  have H := C5_empty_price_tick_suppressed "1" "1" "123" "1" ["1000"]
  have H2 := H.2 Nat tickDispatcher rfl (by decide) rfl
  exact ⟨H.1 0, H2.1, H2.2⟩

/-- C8 (evaluation of the code at the claim's own inputs): the attribute
bag `{security_type: "OPT", strike: 100, option_type: "C"}` does resolve to
the `Option` variant, and a bag with a *missing* discriminant falls back to
the base contract, and a failing variant validation (strike 0) degrades to
the base contract — but the claim's second example
`{security_type: "XYZ"}` makes `ContractAdapter.parse` RAISE: the
discriminated union rejects the unknown tag, and the fallback
`Contract.model_validate(data)` (adapter.py line 65, outside any `try`)
rejects `"XYZ"` too because `Contract.security_type` is typed
`SecurityType | None` and `SecurityType` has no `_missing_` hook.  So the
claim's "never raises / unrecognized discriminant yields the base
Contract" is false on the code. -/
theorem C8_contract_resolver_eval :
    contractAdapterParse { AttrBag.empty with security_type := some "OPT", strike := some 100, option_type := some "C" }
      = .ok (.option, { AttrBag.empty with security_type := some "OPT", strike := some 100, option_type := some "C" }) ∧
    contractAdapterParse { AttrBag.empty with security_type := some "XYZ" } = .error () ∧
    contractAdapterParse AttrBag.empty = .ok (.base, AttrBag.empty) ∧
    contractAdapterParse { AttrBag.empty with security_type := some "OPT", strike := some 0, option_type := some "C" }
      = .ok (.base, { AttrBag.empty with security_type := some "OPT", strike := some 0, option_type := some "C" }) :=
  ⟨rfl, rfl, rfl, rfl⟩

/-- C6 (evaluation of the code at the failing inputs, plus the intended
local behaviour): the open-order (tag 5) and completed-order (tag 101)
decoders never reach their hedge block on ANY field list — both raise
`ValueError` at `contract.conId = it.next_int()`, the second/first own read,
because the pydantic `Contract` model declares `contract_id` rather than
`conId` and `validate_assignment` rejects undeclared attributes; the first
two conjuncts evaluate the decoders on well-formed fixtures.  The last two
conjuncts show that the hedge block itself (`readHedgeFields`, shared by
both decoders, orders.py lines 212-215 / 578-581) implements exactly the
claimed gating in isolation: an empty hedge-type token advances the cursor
by one and consumes no hedge-parameter, a non-empty hedge-type (with a
token available) advances it by two and consumes one. -/
theorem C6_hedge_gating (c : Cursor) :
    ((openOrderFromFields 176) (FieldIterator openOrderFixture 0) = .error ()) ∧
    ((completedOrderFromFields 176) (FieldIterator completedOrderFixture 0)
        = .error ()) ∧
    (c.index < c.length → c.tok = "" →
       readHedgeFields c = .ok (("", none), { c with index := c.index + 1 })) ∧
    (c.index + 1 < c.length → c.tok ≠ "" →
       readHedgeFields c
         = .ok ((c.tok, some (c.fields.getD (c.index + 1) "")),
                { c with index := c.index + 2 })) := by
  refine ⟨rfl, rfl, ?_, ?_⟩
  · intro h he
    have he' : c.fields.getD c.index "" = "" := he
    simp only [List.getD_eq_getElem?_getD] at he'
    simp [readHedgeFields, nextM, Bind.bind, StateT.bind, Cursor.next, h, he',
          Except.bind, Pure.pure, StateT.pure, Except.pure]
  · intro h ht
    have ht' : ¬ (c.fields.getD c.index "" = "") := ht
    simp only [List.getD_eq_getElem?_getD] at ht'
    have h0 : c.index < c.length := by omega
    simp [readHedgeFields, nextM, Bind.bind, StateT.bind, Cursor.next, h, h0, ht',
          Except.bind, Pure.pure, StateT.pure, Except.pure, Cursor.tok]

/-- Witness for C6's hedge-block conjuncts at concrete cursors. -/
theorem C6_hedge_gating_witness :
    readHedgeFields (FieldIterator ["", "x"] 0) = .ok (("", none), ⟨["", "x"], 1, 2⟩) ∧
    readHedgeFields (FieldIterator ["D", "p"] 0)
      = .ok (("D", some "p"), ⟨["D", "p"], 2, 2⟩) := by
  exact ⟨(C6_hedge_gating (FieldIterator ["", "x"] 0)).2.2.1 (by decide) (by decide),
         (C6_hedge_gating (FieldIterator ["D", "p"] 0)).2.2.2 (by decide) (by decide)⟩

/-- C7 (evaluation of the code at the failing inputs, plus the intended
local behaviour): `parse_contract_details` raises on EVERY input, at either
protocol version, at `details.marketName = fields.next()` (the pydantic
`ContractDetails` model declares `market_name`), so the claimed
three-token consumption difference between versions 163 and 164 is
unreachable; likewise `OpenOrderMessage.from_fields` raises at
`contract.conId` long before its version-gated tail, at version 169 and
170 alike.  The last two conjuncts show the version-gated tail itself
(`readVersionGatedTail`, orders.py lines 301-313) reads, in isolation,
exactly three tokens at version 169 and exactly eight at version 170 —
the five fields from `minTradeQty` onward are read only at `>= 170`. -/
theorem C7_version_gates (c : Cursor) (o : AttrMap) :
    ((parse_contract_details 163) (FieldIterator contractDetailsFixture 0)
        = .error ()) ∧
    ((parse_contract_details 164) (FieldIterator contractDetailsFixture 0)
        = .error ()) ∧
    ((openOrderFromFields 169) (FieldIterator openOrderFixture 0) = .error ()) ∧
    ((openOrderFromFields 170) (FieldIterator openOrderFixture 0) = .error ()) ∧
    (c.index + 3 ≤ c.length →
       Except.map (fun p => p.2.index) (readVersionGatedTail 169 o c)
         = .ok (c.index + 3)) ∧
    (c.index + 8 ≤ c.length →
       Except.map (fun p => p.2.index) (readVersionGatedTail 170 o c)
         = .ok (c.index + 8)) := by
  refine ⟨rfl, rfl, rfl, rfl, ?_, ?_⟩
  · intro h
    have h0 : c.index < c.length := by omega
    have h1 : c.index + 1 < c.length := by omega
    have h2 : c.index + 2 < c.length := by omega
    simp [readVersionGatedTail, nextIntM, nextBoolM, nextFloatM, Cursor.nextInt,
          Cursor.nextBool, Cursor.nextFloat, Cursor.next, Bind.bind, StateT.bind,
          Except.bind, Pure.pure, StateT.pure, Except.pure, h0, h1, h2, Except.map]
  · intro h
    have h0 : c.index < c.length := by omega
    have h1 : c.index + 1 < c.length := by omega
    have h2 : c.index + 2 < c.length := by omega
    have h3 : c.index + 3 < c.length := by omega
    have h4 : c.index + 4 < c.length := by omega
    have h5 : c.index + 5 < c.length := by omega
    have h6 : c.index + 6 < c.length := by omega
    have h7 : c.index + 7 < c.length := by omega
    simp [readVersionGatedTail, nextIntM, nextBoolM, nextFloatM, Cursor.nextInt,
          Cursor.nextBool, Cursor.nextFloat, Cursor.next, Bind.bind, StateT.bind,
          Except.bind, Pure.pure, StateT.pure, Except.pure, h0, h1, h2, h3, h4,
          h5, h6, h7, Except.map]

/-- Witness for C7's version-gated-tail conjuncts at a concrete cursor. -/
theorem C7_version_gates_witness :
    Except.map (fun p => p.2.index)
      (readVersionGatedTail 169 []
        (FieldIterator ["1", "2", "1", "5", "6", "7.5", "8.5", "9.5"] 0))
      = .ok 3 ∧
    Except.map (fun p => p.2.index)
      (readVersionGatedTail 170 []
        (FieldIterator ["1", "2", "1", "5", "6", "7.5", "8.5", "9.5"] 0))
      = .ok 8 := by
  exact ⟨(C7_version_gates (FieldIterator ["1", "2", "1", "5", "6", "7.5", "8.5", "9.5"] 0) []).2.2.2.2.1 (by decide),
         (C7_version_gates (FieldIterator ["1", "2", "1", "5", "6", "7.5", "8.5", "9.5"] 0) []).2.2.2.2.2 (by decide)⟩

/-- C1 (amended): registering a second decoder for an already-registered tag,
or a second handler for an already-registered message class, does not fail —
registration is a plain dict assignment with no occupancy check — and
silently replaces the first registration: the subsequent lookup returns the
second one (last registration wins).
(base.py lines 118-162.) -/
theorem C1_duplicate_registration_overwrites {W Msg : Type}
    (r : MessageRegistry W Msg) (msgId : Int) (c₁ c₂ : MessageClass Msg)
    (nm : String) (h₁ h₂ : HandlerFn W Msg) :
    getMessageClass (registerMessage (registerMessage r msgId c₁) msgId c₂) msgId
      = some { c₂ with messageId := some msgId } ∧
    getHandler (registerHandler (registerHandler r nm h₁) nm h₂) nm = some h₂ := by
  constructor
  · exact assocGet?_assocSet_self _ _ _
  · exact assocGet?_assocSet_self _ _ _

end IB
